import Mathlib

/-!
# chatty: the websocket connection layer

A shallow embedding of `connection/implementations/websocket.go`:

* the wire codec (`wsRequestType`, `wsRequestData`, the `typeToString` table),
  over a model of the `encoding/json` decoder it calls;
* the handshake `Authorize` and the accessors, as state-passing functions over
  an abstract transport (`WebsocketConn`);
* the two pumps `pumpIn` / `pumpOut` with `receive` / `send`, as a small-step
  transition function whose action labels resolve the scheduler's and the
  environment's choices.

Message bytes are modelled as text (`String`): the transport is assumed to
deliver valid UTF-8.
-/

namespace Chatty

/-! ## JSON values -/

/-- A JSON number literal: sign, integer part, the digits after the point and the exponent. -/
structure Number where
  neg : Bool
  int : Nat
  frac : List Nat
  exp : Option (Bool × Nat)
deriving DecidableEq, Repr

/-- A JSON value as the decoder sees it (object members in input order, duplicates kept). -/
inductive Json where
  | null
  | bool (b : Bool)
  | num (n : Number)
  | str (s : String)
  | arr (es : List Json)
  | obj (ms : List (String × Json))
deriving Repr

/-! ## Scanner: text to raw tokens -/

/-- Raw tokens: punctuation, and the undecoded text of strings, numbers and words. -/
inductive RawToken where
  | lbrace | rbrace | lbrack | rbrack | colon | comma
  | rawStr (cs : List Char)
  | rawNum (cs : List Char)
  | word (cs : List Char)
deriving DecidableEq, Repr

/-- Scanner mode between and inside tokens; accumulators are kept reversed. -/
inductive Mode where
  | idle
  | inStr (acc : List Char)
  | inEsc (acc : List Char)
  | inNum (acc : List Char)
  | inWord (acc : List Char)
  | bad
deriving DecidableEq, Repr

def isSpace (c : Char) : Bool := c = ' ' || c = '\t' || c = '\r' || c = '\n'

def isDigit (c : Char) : Bool := '0' ≤ c && c ≤ '9'

def isNumChar (c : Char) : Bool := isDigit c || c = '.' || c = 'e' || c = 'E' || c = '+' || c = '-'

def isLower (c : Char) : Bool := 'a' ≤ c && c ≤ 'z'

/-- A character met between tokens. -/
def scanIdle (out : List RawToken) (c : Char) : Mode × List RawToken :=
  if isSpace c then (.idle, out)
  else if c = '{' then (.idle, .lbrace :: out)
  else if c = '}' then (.idle, .rbrace :: out)
  else if c = '[' then (.idle, .lbrack :: out)
  else if c = ']' then (.idle, .rbrack :: out)
  else if c = ':' then (.idle, .colon :: out)
  else if c = ',' then (.idle, .comma :: out)
  else if c = '"' then (.inStr [], out)
  else if c = '-' || isDigit c then (.inNum [c], out)
  else if isLower c then (.inWord [c], out)
  else (.bad, out)

/-- One scanner step. -/
def scanStep (st : Mode × List RawToken) (c : Char) : Mode × List RawToken :=
  match st with
  | (.idle, out) => scanIdle out c
  | (.inStr acc, out) =>
    if c = '"' then (.idle, .rawStr acc.reverse :: out)
    else if c = '\\' then (.inEsc (c :: acc), out)
    else if c.toNat < 32 then (.bad, out)
    else (.inStr (c :: acc), out)
  | (.inEsc acc, out) => (.inStr (c :: acc), out)
  | (.inNum acc, out) =>
    if isNumChar c then (.inNum (c :: acc), out)
    else scanIdle (.rawNum acc.reverse :: out) c
  | (.inWord acc, out) =>
    if isLower c then (.inWord (c :: acc), out)
    else scanIdle (.word acc.reverse :: out) c
  | (.bad, out) => (.bad, out)

/-- Scan a whole text; `none` when a token is malformed or left open. -/
def scan (cs : List Char) : Option (List RawToken) :=
  match cs.foldl scanStep (.idle, []) with
  | (.idle, out) => some out.reverse
  | (.inNum acc, out) => some (RawToken.rawNum acc.reverse :: out).reverse
  | (.inWord acc, out) => some (RawToken.word acc.reverse :: out).reverse
  | _ => none

/-! ## Literals: strings and numbers -/

def hexVal (c : Char) : Option Nat :=
  if '0' ≤ c ∧ c ≤ '9' then some (c.toNat - 48)
  else if 'a' ≤ c ∧ c ≤ 'f' then some (c.toNat - 87)
  else if 'A' ≤ c ∧ c ≤ 'F' then some (c.toNat - 55)
  else none

def hex4 (a b c d : Char) : Option Nat :=
  match hexVal a, hexVal b, hexVal c, hexVal d with
  | some w, some x, some y, some z => some (((w * 16 + x) * 16 + y) * 16 + z)
  | _, _, _, _ => none

def isSurrogate (r : Nat) : Bool := 0xd800 ≤ r && r < 0xe000

/-- The rune of a surrogate pair, or U+FFFD when the two halves do not pair up. -/
def decodePair (r1 r2 : Nat) : Char :=
  if 0xd800 ≤ r1 ∧ r1 < 0xdc00 ∧ 0xdc00 ≤ r2 ∧ r2 < 0xe000 then
    Char.ofNat ((r1 - 0xd800) * 1024 + (r2 - 0xdc00) + 0x10000)
  else Char.ofNat 0xfffd

/-- The rune a second `\uXXXX` escape would contribute, when one follows. -/
def peekU4 : List Char → Option Nat
  | '\\' :: 'u' :: a :: b :: c :: d :: _ => hex4 a b c d
  | _ => none

def simpleEscape (c : Char) : Option Char :=
  if c = '"' then some '"'
  else if c = '\\' then some '\\'
  else if c = '/' then some '/'
  else if c = 'b' then some (Char.ofNat 8)
  else if c = 'f' then some (Char.ofNat 12)
  else if c = 'n' then some '\n'
  else if c = 'r' then some '\r'
  else if c = 't' then some '\t'
  else none

/-- Decode the escapes of a string literal's body. `skip` counts characters of an
already consumed second half of a surrogate pair. -/
def unquoteAux : Nat → List Char → Option (List Char)
  | _, [] => some []
  | (k + 1), _ :: rest => unquoteAux k rest
  | 0, '\\' :: 'u' :: a :: b :: c :: d :: rest =>
    match hex4 a b c d with
    | none => none
    | some r =>
      if isSurrogate r then
        match peekU4 rest with
        | some r2 =>
          if decodePair r r2 = Char.ofNat 0xfffd then
            (unquoteAux 0 rest).map (Char.ofNat 0xfffd :: ·)
          else (unquoteAux 6 rest).map (decodePair r r2 :: ·)
        | none => (unquoteAux 0 rest).map (Char.ofNat 0xfffd :: ·)
      else (unquoteAux 0 rest).map (Char.ofNat r :: ·)
  | 0, '\\' :: c :: rest =>
    match simpleEscape c with
    | some x => (unquoteAux 0 rest).map (x :: ·)
    | none => none
  | 0, ['\\'] => none
  | 0, c :: rest => (unquoteAux 0 rest).map (c :: ·)

def unquote (cs : List Char) : Option String := (unquoteAux 0 cs).map String.mk

def digitsVal (ds : List Char) : Nat := ds.foldl (fun n c => n * 10 + (c.toNat - 48)) 0

/-- Exponent part after `e`: optional sign, then at least one digit, nothing else. -/
def parseExp (cs : List Char) : Option (Bool × Nat) :=
  let (neg, ds) :=
    match cs with
    | '-' :: ds => (true, ds)
    | '+' :: ds => (false, ds)
    | ds => (false, ds)
  if ds ≠ [] ∧ ds.all isDigit then some (neg, digitsVal ds) else none

/-- Fraction and exponent after the integer part. -/
def parseTail (neg : Bool) (int : Nat) (cs : List Char) : Option Number :=
  let (fr, rest) :=
    match cs with
    | '.' :: t => (some (t.takeWhile isDigit), t.dropWhile isDigit)
    | t => (none, t)
  if fr = some [] then none
  else
    let frac := (fr.getD []).map (fun c => c.toNat - 48)
    match rest with
    | [] => some ⟨neg, int, frac, none⟩
    | c :: t =>
      if c = 'e' ∨ c = 'E' then (parseExp t).map (fun e => ⟨neg, int, frac, some e⟩)
      else none

/-- A number literal: `-?(0|[1-9][0-9]*)(\.[0-9]+)?([eE][+-]?[0-9]+)?`. -/
def parseNumber (cs : List Char) : Option Number :=
  let (neg, body) :=
    match cs with
    | '-' :: t => (true, t)
    | t => (false, t)
  match body with
  | [] => none
  | '0' :: t => parseTail neg 0 t
  | c :: t =>
    if isDigit c then
      parseTail neg (digitsVal (c :: t.takeWhile isDigit)) (t.dropWhile isDigit)
    else none

/-! ## Parser: tokens to a value -/

inductive Token where
  | lbrace | rbrace | lbrack | rbrack | colon | comma
  | scalar (v : Json)
  | str (s : String)

def cook : RawToken → Option Token
  | .lbrace => some .lbrace
  | .rbrace => some .rbrace
  | .lbrack => some .lbrack
  | .rbrack => some .rbrack
  | .colon => some .colon
  | .comma => some .comma
  | .rawStr cs => (unquote cs).map Token.str
  | .rawNum cs => (parseNumber cs).map (fun n => Token.scalar (.num n))
  | .word cs =>
    if cs = "null".toList then some (.scalar .null)
    else if cs = "true".toList then some (.scalar (.bool true))
    else if cs = "false".toList then some (.scalar (.bool false))
    else none

def cookAll : List RawToken → Option (List Token)
  | [] => some []
  | t :: ts =>
    match cook t, cookAll ts with
    | some x, some xs => some (x :: xs)
    | _, _ => none

/-- An open array or object; members are kept reversed. -/
inductive Frame where
  | arr (es : List Json)
  | obj (ms : List (String × Json)) (key : Option String)

inductive Expect where
  | value | valueOrClose | commaOrClose | keyOrClose | key | colon | done
deriving DecidableEq

inductive PState where
  | run (stack : List Frame) (ex : Expect)
  | finished (v : Json)
  | failed

/-- A complete value `v` arrives below the frames `stack`. -/
def complete (stack : List Frame) (v : Json) : PState :=
  match stack with
  | [] => .finished v
  | .arr es :: rest => .run (.arr (v :: es) :: rest) .commaOrClose
  | .obj ms (some k) :: rest => .run (.obj ((k, v) :: ms) none :: rest) .commaOrClose
  | .obj _ none :: _ => .failed

def wantsValue (ex : Expect) : Bool := ex = .value || ex = .valueOrClose

/-- The deepest nesting of arrays and objects the decoder accepts. -/
def maxNestingDepth : Nat := 10000

/-- An array or object opens below the frames `stack`: refused beyond the nesting limit. -/
def open' (stack : List Frame) (f : Frame) (ex : Expect) : PState :=
  if stack.length + 1 ≤ maxNestingDepth then .run (f :: stack) ex else .failed

def parseStep (st : PState) (t : Token) : PState :=
  match st with
  | .finished _ => .failed
  | .failed => .failed
  | .run stack ex =>
    match t with
    | .scalar v => if wantsValue ex then complete stack v else .failed
    | .str s =>
      if wantsValue ex then complete stack (.str s)
      else if ex = .keyOrClose ∨ ex = .key then
        match stack with
        | .obj ms none :: rest => .run (.obj ms (some s) :: rest) .colon
        | _ => .failed
      else .failed
    | .lbrack => if wantsValue ex then open' stack (.arr []) .valueOrClose else .failed
    | .lbrace => if wantsValue ex then open' stack (.obj [] none) .keyOrClose else .failed
    | .rbrack =>
      match stack with
      | .arr es :: rest =>
        if ex = .valueOrClose ∨ ex = .commaOrClose then complete rest (.arr es.reverse) else .failed
      | _ => .failed
    | .rbrace =>
      match stack with
      | .obj ms none :: rest =>
        if ex = .keyOrClose ∨ ex = .commaOrClose then complete rest (.obj ms.reverse) else .failed
      | _ => .failed
    | .comma =>
      if ex = .commaOrClose then
        match stack with
        | .arr es :: rest => .run (.arr es :: rest) .value
        | .obj ms none :: rest => .run (.obj ms none :: rest) .key
        | _ => .failed
      else .failed
    | .colon => if ex = .colon then .run stack .value else .failed

def parseTokens (ts : List Token) : Option Json :=
  match ts.foldl parseStep (.run [] .value) with
  | .finished v => some v
  | _ => none

/-- The value a text denotes, `none` when the text is not exactly one JSON value or is
nested deeper than `maxNestingDepth`. -/
def parseJSON (data : String) : Option Json :=
  match scan data.toList with
  | none => none
  | some raw =>
    match cookAll raw with
    | none => none
    | some ts => parseTokens ts

/-! ## encoding/json: storing a value into Go data -/

/-- Case folding used when a key has no exact field match: ASCII letters, plus the
Kelvin sign and the long s, which fold to `k` and `s`. -/
def foldRune (c : Char) : Char :=
  if 'A' ≤ c ∧ c ≤ 'Z' then Char.ofNat (c.toNat + 32)
  else if c = Char.ofNat 0x212a then 'k'
  else if c = Char.ofNat 0x17f then 's'
  else c

def foldName (s : String) : String := String.mk (s.toList.map foldRune)

/-- Position of the first name equal to `key`. -/
def indexOfName (key : String) : List String → Option Nat
  | [] => none
  | n :: ns => if n = key then some 0 else (indexOfName key ns).map (· + 1)

/-- The struct field a member key selects: an exact match, else the first match
under case folding. -/
def findField (names : List String) (key : String) : Option Nat :=
  match indexOfName key names with
  | some i => some i
  | none => indexOfName (foldName key) (names.map foldName)

/-- Kinds of payload field. -/
inductive Kind where
  | int | string | bool
deriving DecidableEq, Repr

/-- A field value. -/
inductive Val where
  | int (n : Int)
  | string (s : String)
  | bool (b : Bool)
deriving DecidableEq, Repr

/-- Go zero value of a kind. -/
def Kind.zero : Kind → Val
  | .int => .int 0
  | .string => .string ""
  | .bool => .bool false

/-- The `int` a number literal stores: integer syntax only, within 64 bits. -/
def intOf (n : Number) : Option Int :=
  if n.frac = [] ∧ n.exp = none then
    let v : Int := if n.neg then -(n.int : Int) else (n.int : Int)
    if -(2 : Int) ^ 63 ≤ v ∧ v < (2 : Int) ^ 63 then some v else none
  else none

/-- Store a JSON value into a field of kind `k` holding `old`: `null` and values of
the wrong type leave the field as it is (the decoder records an error and goes on). -/
def store (k : Kind) (j : Json) (old : Val) : Val :=
  match k, j with
  | .int, .num n =>
    match intOf n with
    | some v => .int v
    | none => old
  | .string, .str s => .string s
  | .bool, .bool b => .bool b
  | _, _ => old

/-- Modelled from the spec: the payload struct declarations of package `connection`
are not part of the sources; a struct is described by the JSON name and kind of each
of its fields, in declaration order. -/
abbrev Shape := List (String × Kind)

/-- A struct value: one value per field. -/
abbrev Record := List Val

def Shape.zero (sh : Shape) : Record := sh.map (fun f => f.2.zero)

/-- One object member stored into a struct. -/
def storeMember (sh : Shape) (r : Record) (m : String × Json) : Record :=
  match findField (sh.map Prod.fst) m.1 with
  | none => r
  | some i =>
    match sh[i]?, r[i]? with
    | some f, some old => r.set i (store f.2 m.2 old)
    | _, _ => r

/-- The effect of `json.Unmarshal(raw, &v)` on a zero struct `v` of shape `sh`, the error
dropped: members of an object are stored in input order; anything else (no text,
`null`, a value of another type) leaves `v` zero. -/
def unmarshalStruct (sh : Shape) (raw : Option Json) : Record :=
  match raw with
  | some (.obj ms) => ms.foldl (storeMember sh) sh.zero
  | _ => sh.zero

/-- Modelled from the spec: `connection.RequestType`, declared outside the sources. -/
inductive RequestType where
  | SendMessage | CreateConversation | RetrieveConversation | RequestError
deriving DecidableEq, Repr

/-- Modelled from the spec: `connection.ResponseType`, declared outside the sources. -/
inductive ResponseType where
  | NewMessage | NewConversation | ReturnConversation | Error
deriving DecidableEq, Repr

def sendMessage : String := "sendMessage"
def createConversation : String := "createConversation"
def retrieveConversation : String := "retrieveConversation"
def newMessage : String := "newMessage"
def newConversation : String := "newConversation"
def returnConversation : String := "returnConversation"
def responseError : String := "error"

def stringToType : List (String × RequestType) :=
  [(sendMessage, .SendMessage),
   (createConversation, .CreateConversation),
   (retrieveConversation, .RetrieveConversation)]

def typeToString : List (ResponseType × String) :=
  [(.NewMessage, newMessage),
   (.NewConversation, newConversation),
   (.Error, responseError),
   (.ReturnConversation, returnConversation)]

/-- Go map index `m[k]`: the zero value when the key is absent. -/
def mapIndex (m : List (ResponseType × String)) (k : ResponseType) : String :=
  (m.lookup k).getD ""

/-- The envelope read from the wire; `Data` is the `json.RawMessage`, kept as the value
its text denotes (`none` for a nil slice). -/
structure wsRequest where
  RequestType : String
  Data : Option Json

/-- The envelope written to the wire, over any payload type. -/
structure wsResponse (D : Type) where
  ResponseType : String
  Data : D
deriving DecidableEq, Repr

/-- The three payload structs of package `connection`. -/
structure PayloadShapes where
  SendMessageRequest : Shape
  CreateConversationRequest : Shape
  RetrieveConversationRequest : Shape

/-- What a `Request` carries in its `Data interface{}`. -/
inductive Payload where
  | SendMessageRequest (r : Record)
  | CreateConversationRequest (r : Record)
  | RetrieveConversationRequest (r : Record)
  | nil
deriving DecidableEq, Repr

/-- Modelled from the spec: `connection.Request`, declared outside the sources. -/
structure Request where
  Type' : RequestType
  Data : Payload
deriving DecidableEq, Repr

/-- Modelled from the spec: `connection.Response`, declared outside the sources. -/
structure Response (D : Type) where
  Type' : ResponseType
  Data : D
deriving DecidableEq, Repr

def wsRequestType (reqType : String) : RequestType :=
  match stringToType.lookup reqType with
  | some val => val
  | none => .RequestError

/-- One member of the envelope object stored into a `wsRequest`. -/
def wsRequest.storeMember (req : wsRequest) (m : String × Json) : wsRequest :=
  match findField ["type", "data"] m.1 with
  | some 0 =>
    match m.2 with
    | .str s => { req with RequestType := s }
    | _ => req
  | some _ => { req with Data := some m.2 }
  | none => req

/-- The effect of `json.Unmarshal(data, &request)` on a zero `wsRequest`, the error dropped. -/
def unmarshalRequest (data : String) : wsRequest :=
  match parseJSON data with
  | some (.obj ms) => ms.foldl wsRequest.storeMember ⟨"", none⟩
  | _ => ⟨"", none⟩

def wsRequestData (shapes : PayloadShapes) (data : String) : Request :=
  let request := unmarshalRequest data
  match wsRequestType request.RequestType with
  | .SendMessage =>
    ⟨.SendMessage, .SendMessageRequest (unmarshalStruct shapes.SendMessageRequest request.Data)⟩
  | .CreateConversation =>
    ⟨.CreateConversation,
      .CreateConversationRequest (unmarshalStruct shapes.CreateConversationRequest request.Data)⟩
  | .RetrieveConversation =>
    ⟨.RetrieveConversation,
      .RetrieveConversationRequest (unmarshalStruct shapes.RetrieveConversationRequest request.Data)⟩
  | .RequestError => ⟨.RequestError, .nil⟩

/-- The envelope `pumpOut` hands to `send` for a response. -/
def pumpOutEnvelope {D : Type} (response : Response D) : wsResponse D :=
  { ResponseType := mapIndex typeToString response.Type', Data := response.Data }

/-! ## The connection -/

/-- Modelled from the spec: `repositories.Conversant`, declared outside the sources
(an opaque id and a display name). -/
structure Conversant where
  id : Int
  displayName : String
deriving DecidableEq, Repr

/-- A `map[string]string`; `none` is the nil map. -/
abbrev Creds := Option (List (String × String))

/-- Go map assignment `m[k] = v`. -/
def mapStore (m : List (String × String)) (k v : String) : List (String × String) :=
  m.filter (fun e => e.1 ≠ k) ++ [(k, v)]

/-- The effect of `json.Unmarshal(body, &creds)` on a nil map, the error dropped: every
member of an object is assigned, a value that is not a string as the empty string. -/
def unmarshalCreds (body : String) : Creds :=
  match parseJSON body with
  | some (.obj ms) =>
    some (ms.foldl (fun m kv =>
      mapStore m kv.1 (match kv.2 with
        | .str s => s
        | _ => "")) [])
  | _ => none

/-- The Auth gate: a Conversant and an error, as Go returns them. -/
abbrev Auth := Creds → Conversant × Option String

/-- An error value `Authorize` returns: one handed in from outside (by the transport),
or the value `errors.New(msg)` creates in this package. -/
inductive GoError where
  | outside (msg : String)
  | errorsNew (msg : String)
deriving DecidableEq, Repr

/-- A deadline argument: the zero time, or `time.Now()` plus some seconds. -/
inductive Deadline where
  | zero
  | nowPlus (seconds : Nat)
deriving DecidableEq, Repr

/-- The transport interface over a transport state `σ`; errors are `Option String`. -/
structure WebsocketConn (σ D : Type) where
  SetReadDeadline : Deadline → σ → σ × Option String
  SetWriteDeadline : Deadline → σ → σ × Option String
  ReadMessage : σ → σ × (Int × String × Option String)
  WriteJSON : wsResponse D → σ → σ × Option String
  Close : σ → σ × Option String

/-- A call made on the transport. -/
inductive Call (D : Type) where
  | SetReadDeadline (d : Deadline)
  | SetWriteDeadline (d : Deadline)
  | ReadMessage
  | WriteJSON (v : wsResponse D)
  | Close
deriving DecidableEq, Repr

/-- Where a `pumpIn` goroutine stands. `signal` and `push` are the two channel sends
of `receive`, holding the message read. -/
inductive InPc where
  | start | select | close | read
  | signal (message : String)
  | push (message : String)
  | done
deriving DecidableEq, Repr

/-- Where a `pumpOut` goroutine stands. `deadline`, `write` and `signal` are the
statements of `send`. -/
inductive OutPc (D : Type) where
  | select | close
  | deadline (response : wsResponse D)
  | write (response : wsResponse D)
  | signal
  | done
deriving DecidableEq, Repr

/-- The connection. `leave` counts the values buffered in the capacity-1 channel; the
unbuffered channels `requests` and `responses` are kept as the list of values that
have passed through them. `calls`, `gate` and the two goroutine lists are history:
the calls made on the transport, the arguments the Auth gate was called with, and
the pumps started so far. -/
structure Conn (σ D : Type) where
  conn : σ
  conversant : Conversant
  leave : Nat
  requests : List Request
  responses : List (Response D)
  auth : Auth
  calls : List (Call D)
  gate : List Creds
  pumpIn : List InPc
  pumpOut : List (OutPc D)

variable {σ D : Type}

def NewWebsocketConn (conn : σ) (auth : Auth) : Conn σ D :=
  { conn := conn, conversant := ⟨0, ""⟩, leave := 0, requests := [], responses := [],
    auth := auth, calls := [], gate := [], pumpIn := [], pumpOut := [] }

/-- `conn.conn.Close()`, its result dropped. -/
def Conn.close (t : WebsocketConn σ D) (c : Conn σ D) : Conn σ D :=
  { c with conn := (t.Close c.conn).1, calls := c.calls ++ [.Close] }

def Authorize (t : WebsocketConn σ D) (c : Conn σ D) : Conn σ D × Option GoError :=
  let r1 := t.SetReadDeadline (.nowPlus 10) c.conn
  let c1 : Conn σ D :=
    { c with conn := r1.1, calls := c.calls ++ [.SetReadDeadline (.nowPlus 10)] }
  match r1.2 with
  | some err => (c1.close t, some (.outside err))
  | none =>
    let r2 := t.ReadMessage c1.conn
    let c2 : Conn σ D := { c1 with conn := r2.1, calls := c1.calls ++ [.ReadMessage] }
    let creds := unmarshalCreds r2.2.2.1
    match r2.2.2.2 with
    | some err => (c2.close t, some (.outside err))
    | none =>
      let c3 : Conn σ D := { c2 with gate := c2.gate ++ [creds] }
      match (c.auth creds).2 with
      | some _ => (c3.close t, some (.errorsNew "not authorized"))
      | none =>
        ({ c3 with
            conversant := (c.auth creds).1,
            pumpIn := c3.pumpIn ++ [.start],
            pumpOut := c3.pumpOut ++ [.select] }, none)

def GetConversant (c : Conn σ D) : Conversant := c.conversant

/-- The channels of a connection, as handles: the accessors below return the channel
itself and leave the connection as it is. -/
inductive Chan where
  | requests | responses | leave
deriving DecidableEq, Repr

def Conn.Requests (_ : Conn σ D) : Chan := .requests

def Conn.Response (_ : Conn σ D) : Chan := .responses

def Conn.Leave (_ : Conn σ D) : Chan := .leave

/-! ## The pumps -/

/-- What the scheduler and the routing component choose next: a step of the `i`-th
read pump (at `push`, the routing component receiving the request); for the `i`-th
write pump, the branch its `select` takes (the shutdown signal, or a response the
routing component sends) or its next statement otherwise; the routing component
sending on the channel `Leave()` returns. -/
inductive Action (D : Type) where
  | stepIn (i : Nat)
  | outLeave (i : Nat)
  | outResponse (i : Nat) (response : Response D)
  | stepOut (i : Nat)
  | routerLeave
deriving DecidableEq, Repr

def Conn.gotoIn (c : Conn σ D) (i : Nat) (pc : InPc) : Conn σ D :=
  { c with pumpIn := c.pumpIn.set i pc }

def Conn.gotoOut (c : Conn σ D) (i : Nat) (pc : OutPc D) : Conn σ D :=
  { c with pumpOut := c.pumpOut.set i pc }

/-- One step of `pumpIn` (with `receive` inlined); `none` when the goroutine is blocked
or has returned. -/
def stepIn (t : WebsocketConn σ D) (shapes : PayloadShapes) (i : Nat) (c : Conn σ D) :
    Option (Conn σ D) :=
  match c.pumpIn[i]? with
  | none => none
  | some .start =>
    let c1 : Conn σ D :=
      { c with conn := (t.SetReadDeadline .zero c.conn).1,
               calls := c.calls ++ [.SetReadDeadline .zero] }
    some (c1.gotoIn i .select)
  | some .select =>
    if 0 < c.leave then some (({ c with leave := c.leave - 1 } : Conn σ D).gotoIn i .close)
    else some (c.gotoIn i .read)
  | some .close => some ((c.close t).gotoIn i .done)
  | some .read =>
    let r := t.ReadMessage c.conn
    let c1 : Conn σ D := { c with conn := r.1, calls := c.calls ++ [.ReadMessage] }
    match r.2.2.2 with
    | some _ => some (c1.gotoIn i (.signal r.2.2.1))
    | none => some (c1.gotoIn i (.push r.2.2.1))
  | some (.signal message) =>
    if c.leave < 1 then
      some (({ c with leave := c.leave + 1 } : Conn σ D).gotoIn i (.push message))
    else none
  | some (.push message) =>
    some (({ c with requests := c.requests ++ [wsRequestData shapes message] } :
      Conn σ D).gotoIn i .select)
  | some .done => none

/-- The `select` of `pumpOut` taking `<-conn.leave`. -/
def outLeave (i : Nat) (c : Conn σ D) : Option (Conn σ D) :=
  match c.pumpOut[i]? with
  | some .select =>
    if 0 < c.leave then some (({ c with leave := c.leave - 1 } : Conn σ D).gotoOut i .close)
    else none
  | _ => none

/-- The `select` of `pumpOut` taking a response from `conn.responses`. -/
def outResponse (i : Nat) (response : Response D) (c : Conn σ D) : Option (Conn σ D) :=
  match c.pumpOut[i]? with
  | some .select =>
    some (({ c with responses := c.responses ++ [response] } : Conn σ D).gotoOut i
      (.deadline (pumpOutEnvelope response)))
  | _ => none

/-- One step of `pumpOut` outside its `select` (with `send` inlined). -/
def stepOut (t : WebsocketConn σ D) (i : Nat) (c : Conn σ D) : Option (Conn σ D) :=
  match c.pumpOut[i]? with
  | some .close => some ((c.close t).gotoOut i .done)
  | some (.deadline response) =>
    let c1 : Conn σ D :=
      { c with conn := (t.SetWriteDeadline (.nowPlus 5) c.conn).1,
               calls := c.calls ++ [.SetWriteDeadline (.nowPlus 5)] }
    some (c1.gotoOut i (.write response))
  | some (.write response) =>
    let r := t.WriteJSON response c.conn
    let c1 : Conn σ D := { c with conn := r.1, calls := c.calls ++ [.WriteJSON response] }
    match r.2 with
    | some _ => some (c1.gotoOut i .signal)
    | none => some (c1.gotoOut i .select)
  | some .signal =>
    if c.leave < 1 then some (({ c with leave := c.leave + 1 } : Conn σ D).gotoOut i .select)
    else none
  | _ => none

def step (t : WebsocketConn σ D) (shapes : PayloadShapes) (a : Action D) (c : Conn σ D) :
    Option (Conn σ D) :=
  match a with
  | .stepIn i => stepIn t shapes i c
  | .outLeave i => outLeave i c
  | .outResponse i response => outResponse i response c
  | .stepOut i => stepOut t i c
  | .routerLeave => if c.leave < 1 then some { c with leave := c.leave + 1 } else none

/-- Run a schedule; `none` when one of its actions is not enabled. -/
def run (t : WebsocketConn σ D) (shapes : PayloadShapes) :
    List (Action D) → Conn σ D → Option (Conn σ D)
  | [], c => some c
  | a :: as, c =>
    match step t shapes a c with
    | none => none
    | some c1 => run t shapes as c1

/-- The operations of a connection: the interface methods and the steps of its pumps. -/
inductive Op (D : Type) where
  | Authorize | GetConversant | Requests | Response | Leave
  | pump (a : Action D)

/-- The connection after an operation; the accessors only read, and an action that
is not enabled does nothing. -/
def Op.apply (t : WebsocketConn σ D) (shapes : PayloadShapes) (op : Op D) (c : Conn σ D) :
    Conn σ D :=
  match op with
  | .Authorize => (Chatty.Authorize t c).1
  | .pump a => (step t shapes a c).getD c
  | _ => c

def runOps (t : WebsocketConn σ D) (shapes : PayloadShapes) (ops : List (Op D)) (c : Conn σ D) :
    Conn σ D :=
  ops.foldl (fun c op => op.apply t shapes c) c

/-- Whether an operation is an `Authorize` call that returns no error. -/
def Op.succeeds (t : WebsocketConn σ D) (op : Op D) (c : Conn σ D) : Bool :=
  match op with
  | .Authorize => (Chatty.Authorize t c).2 = none
  | _ => false

/-- The number of `Authorize` calls in a run that return no error. -/
def successes (t : WebsocketConn σ D) (shapes : PayloadShapes) :
    List (Op D) → Conn σ D → Nat
  | [], _ => 0
  | op :: ops, c =>
    (if op.succeeds t c then 1 else 0) + successes t shapes ops (op.apply t shapes c)

/-! ## A scripted transport -/

/-- A transport that replays a script: the results of the reads and of the writes to
come. Reads past the script fail; writes past it succeed. It counts the `Close` calls it
receives. -/
structure Wire where
  reads : List (String × Option String)
  writes : List (Option String)
  closed : Nat
deriving DecidableEq, Repr

def scripted : WebsocketConn Wire D where
  SetReadDeadline := fun _ s => (s, none)
  SetWriteDeadline := fun _ s => (s, none)
  ReadMessage := fun s =>
    match s.reads with
    | [] => (s, (0, "", some "use of closed network connection"))
    | (m, e) :: rest => ({ s with reads := rest }, (1, m, e))
  WriteJSON := fun _ s =>
    match s.writes with
    | [] => (s, none)
    | e :: rest => ({ s with writes := rest }, e)
  Close := fun s => ({ s with closed := s.closed + 1 }, none)

/-- An Auth gate that accepts credentials carrying a `display_name`. -/
def nameGate : Auth := fun creds =>
  match creds with
  | some m =>
    match m.lookup "display_name" with
    | some n => (⟨1, n⟩, none)
    | none => (⟨0, ""⟩, some "no display name")
  | none => (⟨0, ""⟩, some "no credentials")

/-- The payload shapes of the examples: a send-message request carries a
conversation id and a body. -/
def exampleShapes : PayloadShapes :=
  { SendMessageRequest := [("conversationId", .int), ("body", .string)],
    CreateConversationRequest := [("name", .string)],
    RetrieveConversationRequest := [("conversationId", .int)] }

/-- The result of the single read `Authorize` performs, after setting the deadline. -/
def handshakeRead (t : WebsocketConn σ D) (c : Conn σ D) : σ × (Int × String × Option String) :=
  t.ReadMessage (t.SetReadDeadline (.nowPlus 10) c.conn).1

/-- A connection on the scripted transport that is about to read `reads`. -/
def dial (reads : List (String × Option String)) (writes : List (Option String)) :
    Conn Wire Nat :=
  NewWebsocketConn ⟨reads, writes, 0⟩ nameGate

/-- A schedule in which both pumps meet a transport error: the write pump takes a response
while the read pump reads; the read fails and the read pump signals; the write fails and the
write pump waits to signal; the read pump hands over its request, takes its own signal,
closes and returns; the write pump then signals, takes that signal, closes and returns. -/
def bothFail : List (Action Nat) :=
  [.stepIn 0, .outResponse 0 ⟨.NewMessage, 7⟩, .stepOut 0,
   .stepIn 0, .stepIn 0, .stepIn 0, .stepOut 0,
   .stepIn 0, .stepIn 0, .stepIn 0,
   .stepOut 0, .outLeave 0, .stepOut 0]

/-- A schedule in which only the write pump meets an error, signals, takes its signal,
closes and returns, while the read pump waits in its read. -/
def writeFails : List (Action Nat) :=
  [.stepIn 0, .stepIn 0, .outResponse 0 ⟨.NewMessage, 7⟩, .stepOut 0, .stepOut 0,
   .stepOut 0, .outLeave 0, .stepOut 0]

/-- The schedule `bothFail` up to the point where both pumps have met their error: the read
pump has signalled and is about to push its request, the write pump waits to signal. -/
def bothWait : List (Action Nat) :=
  [.stepIn 0, .outResponse 0 ⟨.NewMessage, 7⟩, .stepOut 0,
   .stepIn 0, .stepIn 0, .stepIn 0, .stepOut 0]

/-- A schedule in which both pumps meet a transport error after the routing component has
sent the shutdown signal: both pumps are in their transport call when the signal arrives,
both calls fail, and each pump goes on to send the signal into the slot that is full. -/
def bothBlock : List (Action Nat) :=
  [.stepIn 0, .stepIn 0, .outResponse 0 ⟨.NewMessage, 7⟩, .stepOut 0, .routerLeave,
   .stepIn 0, .stepOut 0]

/-- The transport of the schedules above: alice's credentials, then a failing read; a
failing write. -/
def failingWire : Wire :=
  ⟨[("\x7b\"display_name\":\"alice\"\x7d", none), ("", some "connection reset")],
    [some "broken pipe"], 0⟩

/-! ## A JSON text for an envelope -/

/-- ASCII lower case. -/
def lowerASCII (c : Char) : Char :=
  if 'A' ≤ c ∧ c ≤ 'Z' then Char.ofNat (c.toNat + 32) else c

/-- Whether a member key names the `type` field of the envelope: letter case is ignored. -/
def isTypeKey (k : String) : Bool := k.toList.map lowerASCII = ['t', 'y', 'p', 'e']

/-- The string values of the members named `type`, in input order. -/
def typeStrings : List (String × Json) → List String
  | [] => []
  | (k, .str s) :: ms => if isTypeKey k then s :: typeStrings ms else typeStrings ms
  | _ :: ms => typeStrings ms

/-- The type string of a message read as an envelope: the message has to be the text of
one JSON object (nested no deeper than the decoder accepts), and its type string is the
last string value among the members named `type`; the empty string when there is none. -/
def envelopeType (data : String) : String :=
  match parseJSON data with
  | some (.obj ms) => (typeStrings ms).getLast?.getD ""
  | _ => ""

/-- The value `v` wrapped in `n` arrays of one element. -/
def nest : Nat → Json → Json
  | 0, v => v
  | n + 1, v => nest n (.arr [v])

/-- A send-message envelope whose data is `n` arrays nested in one another: the object
and `n` brackets deep. -/
def deepMessage (n : Nat) : String :=
  String.mk ("\x7b\"type\":\"sendMessage\",\"data\":".toList ++ List.replicate n '[' ++
    List.replicate n ']' ++ ['\x7d'])

/-! ## Measures and statement vocabulary -/

def Call.isClose : Call D → Bool
  | .Close => true
  | _ => false

def InPc.isDone : InPc → Bool
  | .done => true
  | _ => false

def OutPc.isDone : OutPc D → Bool
  | .done => true
  | _ => false

/-- The transport after one call, the result of the call dropped. -/
def Call.apply (t : WebsocketConn σ D) : Call D → σ → σ
  | .SetReadDeadline d, s => (t.SetReadDeadline d s).1
  | .SetWriteDeadline d, s => (t.SetWriteDeadline d s).1
  | .ReadMessage, s => (t.ReadMessage s).1
  | .WriteJSON v, s => (t.WriteJSON v s).1
  | .Close, s => (t.Close s).1

/-- The transport after a list of calls made on it in order. -/
def replay (t : WebsocketConn σ D) (calls : List (Call D)) (s : σ) : σ :=
  calls.foldl (fun s k => k.apply t s) s

/-- The number of `Close` calls made on the transport. -/
def Conn.closes (c : Conn σ D) : Nat := c.calls.countP Call.isClose

/-- The number of pumps that have returned. -/
def Conn.returned (c : Conn σ D) : Nat :=
  c.pumpIn.countP InPc.isDone + c.pumpOut.countP OutPc.isDone

/-- The envelope object with the given type string and data. -/
def envelope (ty : String) (data : Json) : Json :=
  .obj [("type", .str ty), ("data", data)]

/-- The fixed table of response wire strings, as the specification lists it. -/
def responseWire : ResponseType → String
  | .NewMessage => "newMessage"
  | .NewConversation => "newConversation"
  | .ReturnConversation => "returnConversation"
  | .Error => "error"

/-! ## Lemmas: lists -/

theorem getElem?_set_self {α : Type} (a : α) :
    ∀ (l : List α) (i : Nat) (b : α), l[i]? = some b → (l.set i a)[i]? = some a
  | [], _, _, h => by simp at h
  | _ :: _, 0, _, _ => by simp
  | _ :: l, i + 1, b, h => by
    simp only [List.getElem?_cons_succ] at h
    simpa using getElem?_set_self a l i b h

theorem countP_set {α : Type} (p : α → Bool) (a : α) :
    ∀ (l : List α) (i : Nat) (b : α), l[i]? = some b →
      (l.set i a).countP p + (if p b then 1 else 0) = l.countP p + (if p a then 1 else 0)
  | [], _, _, h => by simp at h
  | x :: l, 0, b, h => by
    simp only [List.getElem?_cons_zero, Option.some.injEq] at h
    subst h
    simp only [List.set_cons_zero, List.countP_cons]
    omega
  | x :: l, i + 1, b, h => by
    simp only [List.getElem?_cons_succ] at h
    have := countP_set p a l i b h
    simp only [List.set_cons_succ, List.countP_cons]
    omega

theorem step_no_pumps (t : WebsocketConn σ D) (shapes : PayloadShapes) (a : Action D)
    (c c1 : Conn σ D) (hi : c.pumpIn = []) (ho : c.pumpOut = [])
    (h : step t shapes a c = some c1) :
    c1.calls = c.calls ∧ c1.conn = c.conn ∧ c1.pumpIn = [] ∧ c1.pumpOut = [] := by
  cases a with
  | stepIn i => simp [step, stepIn, hi] at h
  | outLeave i => simp [step, outLeave, ho] at h
  | outResponse i r => simp [step, outResponse, ho] at h
  | stepOut i => simp [step, stepOut, ho] at h
  | routerLeave =>
    simp only [step] at h
    split at h
    · cases h
      exact ⟨rfl, rfl, hi, ho⟩
    · cases h

theorem run_no_pumps (t : WebsocketConn σ D) (shapes : PayloadShapes) (acts : List (Action D)) :
    ∀ (c c1 : Conn σ D), c.pumpIn = [] → c.pumpOut = [] →
      run t shapes acts c = some c1 → c1.calls = c.calls ∧ c1.conn = c.conn := by
  induction acts with
  | nil =>
    intro c c1 _ _ h
    simp only [run, Option.some.injEq] at h
    rw [h]
    exact ⟨rfl, rfl⟩
  | cons a as ih =>
    intro c c1 hi ho h
    simp only [run] at h
    cases hs : step t shapes a c with
    | none => rw [hs] at h; cases h
    | some c2 =>
      rw [hs] at h
      obtain ⟨h1, h1c, h2, h3⟩ := step_no_pumps t shapes a c c2 hi ho hs
      obtain ⟨k1, k2⟩ := ih c2 c1 h2 h3 h
      exact ⟨k1.trans h1, k2.trans h1c⟩

/-- What a successful `Authorize` leaves behind. -/
theorem authorize_success (t : WebsocketConn σ D) (c : Conn σ D)
    (h : (Authorize t c).2 = none) :
    (Authorize t c).1.calls = c.calls ++ [.SetReadDeadline (.nowPlus 10), .ReadMessage] ∧
    (Authorize t c).1.pumpIn = c.pumpIn ++ [.start] ∧
    (Authorize t c).1.pumpOut = c.pumpOut ++ [.select] ∧
    (Authorize t c).1.conversant = (c.auth (unmarshalCreds (handshakeRead t c).2.2.1)).1 := by
  simp only [Authorize, handshakeRead] at h ⊢
  split at h
  · cases h
  · split at h
    · cases h
    · split at h
      · cases h
      · rename_i h1 _ h2 _ h3
        simp only [h1, h2, h3]
        simp

/-- A failing `Authorize` leaves the stored Conversant as it was. -/
theorem authorize_failure (t : WebsocketConn σ D) (c : Conn σ D)
    (h : (Authorize t c).2 ≠ none) : (Authorize t c).1.conversant = c.conversant := by
  simp only [Authorize] at h ⊢
  split
  · rfl
  · split
    · rfl
    · split
      · rfl
      · rename_i h1 _ h2 _ h3
        simp only [h1, h2, h3] at h
        exact absurd rfl h

/-- C1: when the deadline is set and the handshake read delivers a message without error, and
the Auth gate returns an error `e` for its credentials, `Authorize` returns the error made by
`errors.New("not authorized")`, whatever `e` is and not `e` itself; it calls `Close` on the
transport as the read left it, so the calls it makes are the deadline, the read and then
`Close`; the stored Conversant and the pumps are as before; and on a connection without
pumps no schedule makes a further call on the transport or changes it. -/
theorem authorize_rejected (t : WebsocketConn σ D) (shapes : PayloadShapes) (c : Conn σ D)
    (e : String)
    (hd : (t.SetReadDeadline (.nowPlus 10) c.conn).2 = none)
    (hr : (handshakeRead t c).2.2.2 = none)
    (hg : (c.auth (unmarshalCreds (handshakeRead t c).2.2.1)).2 = some e) :
    (Authorize t c).2 = some (.errorsNew "not authorized") ∧
    (Authorize t c).2 ≠ some (.outside e) ∧
    (Authorize t c).1.conn = (t.Close (handshakeRead t c).1).1 ∧
    (Authorize t c).1.calls
      = c.calls ++ [.SetReadDeadline (.nowPlus 10), .ReadMessage, .Close] ∧
    (Authorize t c).1.conversant = c.conversant ∧
    (Authorize t c).1.pumpIn = c.pumpIn ∧
    (Authorize t c).1.pumpOut = c.pumpOut ∧
    (c.pumpIn = [] → c.pumpOut = [] → ∀ acts c1,
      run t shapes acts (Authorize t c).1 = some c1 →
        c1.calls = (Authorize t c).1.calls ∧ c1.conn = (Authorize t c).1.conn) := by
  simp only [handshakeRead] at hr hg
  have hA : Authorize t c =
      (({ c with
          conn := (t.ReadMessage (t.SetReadDeadline (.nowPlus 10) c.conn).1).1,
          calls := (c.calls ++ [.SetReadDeadline (.nowPlus 10)]) ++ [.ReadMessage],
          gate := c.gate ++
            [unmarshalCreds (t.ReadMessage (t.SetReadDeadline (.nowPlus 10) c.conn).1).2.2.1] } :
          Conn σ D).close t, some (.errorsNew "not authorized")) := by
    simp only [Authorize, hd, hr, hg]
  rw [hA]
  refine ⟨rfl, by simp, rfl, by simp [Conn.close], rfl, rfl, rfl, ?_⟩
  intro hi ho acts c1 h
  exact run_no_pumps t shapes acts _ c1 hi ho h

/-- C1, on the scripted transport: a message without a display name is refused, and the
transport has received one `Close`. -/
theorem authorize_rejected_witness :
    (Authorize scripted (dial [("\x7b\"user\":\"bob\"\x7d", none)] [])).2
      = some (.errorsNew "not authorized") ∧
    (Authorize scripted (dial [("\x7b\"user\":\"bob\"\x7d", none)] [])).1.conn
      = ⟨[], [], 1⟩ :=
  ⟨(authorize_rejected scripted exampleShapes (dial [("\x7b\"user\":\"bob\"\x7d", none)] [])
      "no display name" (by rfl) (by rfl) (by rfl)).1,
    (authorize_rejected scripted exampleShapes (dial [("\x7b\"user\":\"bob\"\x7d", none)] [])
      "no display name" (by rfl) (by rfl) (by rfl)).2.2.1⟩

/-- C2: when the deadline is set, the handshake read delivers a message without error and the
Auth gate accepts its credentials with identity `v`, `Authorize` returns no error, makes no
`Close` call (its calls are the deadline and the read), and `GetConversant` then returns `v`. -/
theorem authorize_accepted (t : WebsocketConn σ D) (c : Conn σ D) (v : Conversant)
    (hd : (t.SetReadDeadline (.nowPlus 10) c.conn).2 = none)
    (hr : (handshakeRead t c).2.2.2 = none)
    (hg : c.auth (unmarshalCreds (handshakeRead t c).2.2.1) = (v, none)) :
    (Authorize t c).2 = none ∧
    (Authorize t c).1.calls = c.calls ++ [.SetReadDeadline (.nowPlus 10), .ReadMessage] ∧
    Call.Close ∉ [Call.SetReadDeadline (.nowPlus 10), (Call.ReadMessage : Call D)] ∧
    GetConversant (Authorize t c).1 = v := by
  simp only [handshakeRead] at hr hg
  have hg2 := congrArg Prod.snd hg
  have hg1 := congrArg Prod.fst hg
  simp only at hg1 hg2
  have hA : Authorize t c =
      ({ c with
          conn := (t.ReadMessage (t.SetReadDeadline (.nowPlus 10) c.conn).1).1,
          calls := (c.calls ++ [.SetReadDeadline (.nowPlus 10)]) ++ [.ReadMessage],
          gate := c.gate ++
            [unmarshalCreds (t.ReadMessage (t.SetReadDeadline (.nowPlus 10) c.conn).1).2.2.1],
          conversant := v,
          pumpIn := c.pumpIn ++ [.start],
          pumpOut := c.pumpOut ++ [.select] }, none) := by
    simp only [Authorize, hd, hr, hg2, hg1]
  rw [hA]
  refine ⟨rfl, by simp, by simp, rfl⟩

/-- C2, on the scripted transport: alice is let in. -/
theorem authorize_accepted_witness :
    GetConversant (Authorize scripted (dial [("\x7b\"display_name\":\"alice\"\x7d", none)] [])).1
      = ⟨1, "alice"⟩ :=
  (authorize_accepted scripted (dial [("\x7b\"display_name\":\"alice\"\x7d", none)] [])
    ⟨1, "alice"⟩ (by rfl) (by rfl) (by rfl)).2.2.2

/-- C3: when the deadline is set and the handshake read fails with error `e`, `Authorize`
returns exactly `e`; it calls `Close` on the transport as the read left it, so its calls on
the transport are the deadline (ten seconds from now), the read and then `Close`; the Auth
gate is not called, and the stored Conversant and the pumps are as before. -/
theorem authorize_read_error (t : WebsocketConn σ D) (c : Conn σ D) (e : String)
    (hd : (t.SetReadDeadline (.nowPlus 10) c.conn).2 = none)
    (hr : (handshakeRead t c).2.2.2 = some e) :
    (Authorize t c).2 = some (.outside e) ∧
    (Authorize t c).1.conn = (t.Close (handshakeRead t c).1).1 ∧
    (Authorize t c).1.calls
      = c.calls ++ [.SetReadDeadline (.nowPlus 10), .ReadMessage, .Close] ∧
    (Authorize t c).1.gate = c.gate ∧
    (Authorize t c).1.conversant = c.conversant ∧
    (Authorize t c).1.pumpIn = c.pumpIn ∧
    (Authorize t c).1.pumpOut = c.pumpOut := by
  simp only [handshakeRead] at hr
  have hA : Authorize t c =
      (({ c with
          conn := (t.ReadMessage (t.SetReadDeadline (.nowPlus 10) c.conn).1).1,
          calls := (c.calls ++ [.SetReadDeadline (.nowPlus 10)]) ++ [.ReadMessage] } :
          Conn σ D).close t, some (.outside e)) := by
    simp only [Authorize, hd, hr]
  rw [hA]
  refine ⟨rfl, rfl, by simp [Conn.close], rfl, rfl, rfl, rfl⟩

/-- C3, on the scripted transport: a handshake read that times out; the transport has
received one `Close`. -/
theorem authorize_read_error_witness :
    (Authorize scripted (dial [("", some "i/o timeout")] [])).2
      = some (.outside "i/o timeout") ∧
    (Authorize scripted (dial [("", some "i/o timeout")] [])).1.conn = ⟨[], [], 1⟩ :=
  ⟨(authorize_read_error scripted (dial [("", some "i/o timeout")] []) "i/o timeout"
      (by rfl) (by rfl)).1,
    (authorize_read_error scripted (dial [("", some "i/o timeout")] []) "i/o timeout"
      (by rfl) (by rfl)).2.1⟩

/-! ## The codec: decoding -/

theorem wsRequestType_cases (s : String) :
    (s = sendMessage ∧ wsRequestType s = .SendMessage) ∨
    (s = createConversation ∧ wsRequestType s = .CreateConversation) ∨
    (s = retrieveConversation ∧ wsRequestType s = .RetrieveConversation) ∨
    (s ∉ [sendMessage, createConversation, retrieveConversation] ∧
      wsRequestType s = .RequestError) := by
  by_cases h1 : s = sendMessage
  · left; subst h1; exact ⟨rfl, by decide⟩
  by_cases h2 : s = createConversation
  · right; left; subst h2; exact ⟨rfl, by decide⟩
  by_cases h3 : s = retrieveConversation
  · right; right; left; subst h3; exact ⟨rfl, by decide⟩
  right; right; right
  refine ⟨by simp [h1, h2, h3], ?_⟩
  have e1 : (s == sendMessage) = false := by simpa using h1
  have e2 : (s == createConversation) = false := by simpa using h2
  have e3 : (s == retrieveConversation) = false := by simpa using h3
  simp only [wsRequestType, stringToType, List.lookup, e1, e2, e3]

/-- The tag of a decoded request is the table entry of the envelope's type. -/
theorem wsRequestData_type (shapes : PayloadShapes) (data : String) :
    (wsRequestData shapes data).Type' = wsRequestType (unmarshalRequest data).RequestType := by
  simp only [wsRequestData]
  split <;> simp_all

theorem foldRune_type (c x : Char) (hx : x = 't' ∨ x = 'y' ∨ x = 'p' ∨ x = 'e') :
    foldRune c = x ↔ lowerASCII c = x := by
  unfold foldRune lowerASCII
  by_cases h1 : 'A' ≤ c ∧ c ≤ 'Z'
  · simp only [h1, and_self, if_true]
  · simp only [h1, if_false]
    by_cases h2 : c = Char.ofNat 0x212a
    · subst h2
      rcases hx with h | h | h | h <;> subst h <;> decide
    · simp only [h2, if_false]
      by_cases h3 : c = Char.ofNat 0x17f
      · subst h3
        rcases hx with h | h | h | h <;> subst h <;> decide
      · simp only [h3, if_false]

theorem foldName_type (k : String) : foldName k = "type" ↔ isTypeKey k = true := by
  have e : foldName k = "type" ↔ k.toList.map foldRune = ['t', 'y', 'p', 'e'] := by
    rw [String.ext_iff]
    exact Iff.rfl
  rw [e]
  simp only [isTypeKey, decide_eq_true_eq]
  generalize k.toList = l
  match l with
  | [] => simp
  | [_] => simp
  | [_, _] => simp
  | [_, _, _] => simp
  | [a, b, c, d] =>
    simp only [List.map_cons, List.map_nil, List.cons.injEq, and_true]
    rw [foldRune_type a 't' (by simp), foldRune_type b 'y' (by simp),
      foldRune_type c 'p' (by simp), foldRune_type d 'e' (by simp)]
  | _ :: _ :: _ :: _ :: _ :: _ => simp

theorem findField_type (k : String) :
    findField ["type", "data"] k = some 0 ↔ isTypeKey k = true := by
  rw [← foldName_type]
  have hm : (["type", "data"] : List String).map foldName = ["type", "data"] := by decide
  have ht : foldName "type" = "type" := by decide
  have hd : foldName "data" = "data" := by decide
  by_cases h1 : "type" = k
  · subst h1
    simp [findField, indexOfName, ht]
  by_cases h2 : "data" = k
  · subst h2
    simp [findField, indexOfName, hd]
  by_cases h3 : foldName k = "type"
  · simp [findField, indexOfName, h1, h2, ht, hd, h3]
  · have h3' : ¬ "type" = foldName k := fun h => h3 h.symm
    by_cases h4 : foldName k = "data"
    · simp [findField, indexOfName, h1, h2, ht, hd, h4]
    · have h4' : ¬ "data" = foldName k := fun h => h4 h.symm
      simp [findField, indexOfName, h1, h2, ht, hd, h3, h3', h4']

theorem getLast?_cons_getD {α : Type} (a d : α) (l : List α) :
    (a :: l).getLast?.getD d = l.getLast?.getD a := by
  cases l with
  | nil => rfl
  | cons b l =>
    rw [List.getLast?_cons_cons]
    cases h : (b :: l).getLast? with
    | none => simp at h
    | some x => rfl

/-- The type string the decoder leaves in the envelope is the last string value among the
members named `type`. -/
theorem foldl_storeMember_type (ms : List (String × Json)) :
    ∀ req : wsRequest, (ms.foldl wsRequest.storeMember req).RequestType
      = (typeStrings ms).getLast?.getD req.RequestType := by
  induction ms with
  | nil => intro req; rfl
  | cons m ms ih =>
    intro req
    obtain ⟨k, v⟩ := m
    simp only [List.foldl_cons]
    rw [ih]
    by_cases hk : isTypeKey k = true
    · have hf := (findField_type k).mpr hk
      cases v with
      | str s =>
        simp only [wsRequest.storeMember, hf, typeStrings, hk, if_true, getLast?_cons_getD]
      | _ => simp only [wsRequest.storeMember, hf, typeStrings]
    · have hf : findField ["type", "data"] k ≠ some 0 := fun h => hk ((findField_type k).mp h)
      have hreq : (wsRequest.storeMember req (k, v)).RequestType = req.RequestType := by
        simp only [wsRequest.storeMember]
        split
        · rename_i h; exact absurd h hf
        · rfl
        · rfl
      rw [hreq]
      cases v with
      | str s => simp only [typeStrings, hk, Bool.false_eq_true, if_false]
      | _ => simp only [typeStrings]

theorem unmarshalRequest_type (data : String) :
    (unmarshalRequest data).RequestType = envelopeType data := by
  unfold unmarshalRequest envelopeType
  split
  · rename_i ms h
    simp only [h, foldl_storeMember_type]
  · rfl

/-! ## The codec: a struct and its encoding -/

theorem unmarshalRequest_envelope (data s : String) (v : Json)
    (h : parseJSON data = some (.obj [("type", .str s), ("data", v)])) :
    unmarshalRequest data = ⟨s, some v⟩ := by
  simp only [unmarshalRequest, h, List.foldl_cons, List.foldl_nil]
  have h1 : findField ["type", "data"] "type" = some 0 := by decide
  have h2 : findField ["type", "data"] "data" = some 1 := by decide
  simp only [wsRequest.storeMember, h1, h2]

/-! ## The codec: every envelope has a text -/

theorem cookAll_cons (t : RawToken) (x : Token) (ts : List RawToken) (xs : List Token)
    (h1 : cook t = some x) (h2 : cookAll ts = some xs) : cookAll (t :: ts) = some (x :: xs) := by
  simp [cookAll, h1, h2]

theorem cookAll_append (ts : List RawToken) :
    ∀ (xs : List Token) (us : List RawToken) (ys : List Token),
      cookAll ts = some xs → cookAll us = some ys → cookAll (ts ++ us) = some (xs ++ ys) := by
  induction ts with
  | nil =>
    intro xs us ys h1 h2
    simp only [cookAll, Option.some.injEq] at h1
    subst h1
    simpa using h2
  | cons t ts ih =>
    intro xs us ys h1 h2
    simp only [cookAll] at h1
    cases hc : cook t with
    | none => simp [hc] at h1
    | some x =>
      cases hr : cookAll ts with
      | none => simp [hc, hr] at h1
      | some xr =>
        simp only [hc, hr, Option.some.injEq] at h1
        subst h1
        exact cookAll_cons t x _ _ hc (ih xr us ys hr h2)

theorem replicate_append_cons {α : Type} (n : Nat) (a : α) (l : List α) :
    List.replicate n a ++ a :: l = a :: (List.replicate n a ++ l) := by
  induction n with
  | zero => rfl
  | succ n ih => simp [List.replicate_succ, ih]

theorem scan_lbracks (n : Nat) :
    ∀ (out : List RawToken) (rest : List Char),
      (List.replicate n '[' ++ rest).foldl scanStep (.idle, out)
        = rest.foldl scanStep (.idle, List.replicate n RawToken.lbrack ++ out) := by
  induction n with
  | zero => intro out rest; rfl
  | succ n ih =>
    intro out rest
    have h0 : scanStep (.idle, out) '[' = (.idle, RawToken.lbrack :: out) := rfl
    simp only [List.replicate_succ, List.cons_append, List.foldl_cons, h0]
    rw [ih, replicate_append_cons]

theorem scan_rbracks (n : Nat) :
    ∀ (out : List RawToken) (rest : List Char),
      (List.replicate n ']' ++ rest).foldl scanStep (.idle, out)
        = rest.foldl scanStep (.idle, List.replicate n RawToken.rbrack ++ out) := by
  induction n with
  | zero => intro out rest; rfl
  | succ n ih =>
    intro out rest
    have h0 : scanStep (.idle, out) ']' = (.idle, RawToken.rbrack :: out) := rfl
    simp only [List.replicate_succ, List.cons_append, List.foldl_cons, h0]
    rw [ih, replicate_append_cons]

theorem cookAll_replicate (n : Nat) (r : RawToken) (x : Token) (h : cook r = some x) :
    cookAll (List.replicate n r) = some (List.replicate n x) := by
  induction n with
  | zero => rfl
  | succ n ih => exact cookAll_cons r x _ _ h ih

/-- The tokens of a deep message. -/
theorem tokens_deepMessage (n : Nat) :
    ∃ raw, scan (deepMessage n).toList = some raw ∧
      cookAll raw = some
        ([Token.lbrace, .str "type", .colon, .str "sendMessage", .comma, .str "data", .colon] ++
          (List.replicate n Token.lbrack ++ (List.replicate n Token.rbrack ++ [.rbrace]))) := by
  refine ⟨[RawToken.lbrace, .rawStr "type".toList, .colon, .rawStr "sendMessage".toList, .comma,
    .rawStr "data".toList, .colon] ++ (List.replicate n RawToken.lbrack ++
      (List.replicate n RawToken.rbrack ++ [.rbrace])), ?_, ?_⟩
  · have key : (deepMessage n).toList
        = "\x7b\"type\":\"sendMessage\",\"data\":".toList ++
          (List.replicate n '[' ++ (List.replicate n ']' ++ ['\x7d'])) := by
      simp only [deepMessage, List.append_assoc]
      rfl
    have p1 : ∀ rest, ("\x7b\"type\":\"sendMessage\",\"data\":".toList ++ rest).foldl scanStep
        (.idle, [])
        = rest.foldl scanStep (.idle, [.colon, .rawStr "data".toList, .comma,
            .rawStr "sendMessage".toList, .colon, .rawStr "type".toList, .lbrace]) :=
      fun _ => rfl
    unfold scan
    rw [key, p1, scan_lbracks, scan_rbracks]
    simp [scanStep, scanIdle, isSpace]
  · refine cookAll_append _ _ _ _ (by rfl) (cookAll_append _ _ _ _
      (cookAll_replicate n _ _ rfl) (cookAll_append _ _ _ _ (cookAll_replicate n _ _ rfl) rfl))

theorem foldl_failed (ts : List Token) : ts.foldl parseStep .failed = .failed := by
  induction ts with
  | nil => rfl
  | cons t ts ih => simpa [List.foldl_cons, parseStep] using ih

/-- Opening brackets beyond the nesting limit fail. -/
theorem parse_overflow (n : Nat) :
    ∀ (stack : List Frame) (ex : Expect) (rest : List Token), wantsValue ex = true →
      stack.length ≤ maxNestingDepth → maxNestingDepth < stack.length + n →
      (List.replicate n Token.lbrack ++ rest).foldl parseStep (.run stack ex) = .failed := by
  induction n with
  | zero => intro stack ex rest _ h1 h2; omega
  | succ n ih =>
    intro stack ex rest hw h1 h2
    simp only [List.replicate_succ, List.cons_append, List.foldl_cons, parseStep, hw, if_true,
      open']
    by_cases hk : stack.length + 1 ≤ maxNestingDepth
    · rw [if_pos hk]
      exact ih (Frame.arr [] :: stack) .valueOrClose rest rfl (by simpa using hk)
        (by simp only [List.length_cons]; omega)
    · rw [if_neg hk]
      exact foldl_failed _

/-- Opening brackets within the nesting limit push one array each. -/
theorem parse_opens (n : Nat) :
    ∀ (stack : List Frame) (ex : Expect) (rest : List Token), wantsValue ex = true →
      stack.length + (n + 1) ≤ maxNestingDepth →
      (List.replicate (n + 1) Token.lbrack ++ rest).foldl parseStep (.run stack ex)
        = rest.foldl parseStep
            (.run (List.replicate (n + 1) (Frame.arr []) ++ stack) .valueOrClose) := by
  induction n with
  | zero =>
    intro stack ex rest hw h
    have hk : stack.length + 1 ≤ maxNestingDepth := by omega
    simp [List.replicate_succ, parseStep, hw, open', hk]
  | succ n ih =>
    intro stack ex rest hw h
    have hk : stack.length + 1 ≤ maxNestingDepth := by omega
    have e : List.replicate (n + 1 + 1) Token.lbrack ++ rest
        = Token.lbrack :: (List.replicate (n + 1) Token.lbrack ++ rest) := by
      simp [List.replicate_succ]
    rw [e]
    simp only [List.foldl_cons, parseStep, hw, if_true, open', hk]
    rw [ih (Frame.arr [] :: stack) .valueOrClose rest rfl
      (by simp only [List.length_cons]; omega)]
    rw [replicate_append_cons]
    simp [List.replicate_succ]

/-- Closing brackets wrap the value in one array each. -/
theorem parse_closes (n : Nat) :
    ∀ (v : Json) (stack : List Frame) (rest : List Token),
      (List.replicate n Token.rbrack ++ rest).foldl parseStep
          (complete (List.replicate n (Frame.arr []) ++ stack) v)
        = rest.foldl parseStep (complete stack (nest n v)) := by
  induction n with
  | zero => intro v stack rest; rfl
  | succ n ih =>
    intro v stack rest
    have e : List.replicate (n + 1) Token.rbrack ++ rest
        = Token.rbrack :: (List.replicate n Token.rbrack ++ rest) := by
      simp [List.replicate_succ]
    have q : ∀ (st : List Frame) (w : Json),
        parseStep (complete (Frame.arr [] :: st) w) .rbrack = complete st (.arr [w]) := by
      intro st w
      simp [complete, parseStep]
    rw [e]
    simp only [List.replicate_succ, List.cons_append, List.foldl_cons, q]
    rw [ih]
    rfl

theorem parseJSON_deep (n : Nat) (h : maxNestingDepth ≤ n) : parseJSON (deepMessage n) = none := by
  obtain ⟨raw, hs, hc⟩ := tokens_deepMessage n
  simp only [parseJSON, hs, hc, parseTokens]
  have p : ∀ r, ([Token.lbrace, .str "type", .colon, .str "sendMessage", .comma, .str "data",
        .colon] ++ r).foldl parseStep (.run [] .value)
      = r.foldl parseStep (.run [.obj [("type", .str "sendMessage")] (some "data")] .value) :=
    fun _ => rfl
  rw [p, parse_overflow n [.obj [("type", .str "sendMessage")] (some "data")] .value _ rfl
    (by decide) (by simp only [List.length_singleton]; omega)]

theorem parseJSON_shallow (n : Nat) (h : n + 2 ≤ maxNestingDepth) :
    parseJSON (deepMessage (n + 1))
      = some (envelope "sendMessage" (nest n (.arr []))) := by
  obtain ⟨raw, hs, hc⟩ := tokens_deepMessage (n + 1)
  simp only [parseJSON, hs, hc, parseTokens]
  have p : ∀ r, ([Token.lbrace, .str "type", .colon, .str "sendMessage", .comma, .str "data",
        .colon] ++ r).foldl parseStep (.run [] .value)
      = r.foldl parseStep (.run [.obj [("type", .str "sendMessage")] (some "data")] .value) :=
    fun _ => rfl
  rw [p, parse_opens n [.obj [("type", .str "sendMessage")] (some "data")] .value _ rfl
    (by simp only [List.length_singleton]; omega)]
  have e : List.replicate (n + 1) Token.rbrack ++ [Token.rbrace]
      = Token.rbrack :: (List.replicate n Token.rbrack ++ [Token.rbrace]) := by
    simp [List.replicate_succ]
  have q : parseStep (.run (List.replicate (n + 1) (Frame.arr []) ++
        [.obj [("type", .str "sendMessage")] (some "data")]) .valueOrClose) .rbrack
      = complete (List.replicate n (Frame.arr []) ++
          [.obj [("type", .str "sendMessage")] (some "data")]) (.arr []) := by
    simp [List.replicate_succ, parseStep]
  rw [e, List.foldl_cons, q, parse_closes]
  rfl

theorem nest_arr (n : Nat) : ∀ es : List Json, ∃ es2, nest n (.arr es) = .arr es2 := by
  induction n with
  | zero => intro es; exact ⟨es, rfl⟩
  | succ n ih => intro es; exact ih [.arr es]

/-- A message nested beyond the limit decodes to the sentinel. -/
theorem wsRequestData_deep (shapes : PayloadShapes) (n : Nat) (h : maxNestingDepth ≤ n) :
    wsRequestData shapes (deepMessage n) = ⟨.RequestError, .nil⟩ := by
  have hu : unmarshalRequest (deepMessage n) = ⟨"", none⟩ := by
    simp only [unmarshalRequest, parseJSON_deep n h]
  have hw : wsRequestType "" = .RequestError := by decide
  simp only [wsRequestData, hu, hw]

/-- The same message nested within the limit decodes to a send-message request. -/
theorem wsRequestData_shallow (shapes : PayloadShapes) (n : Nat) (h : n + 2 ≤ maxNestingDepth) :
    wsRequestData shapes (deepMessage (n + 1))
      = ⟨.SendMessage, .SendMessageRequest shapes.SendMessageRequest.zero⟩ := by
  have hp := parseJSON_shallow n h
  have hu := unmarshalRequest_envelope _ _ _ hp
  obtain ⟨es, he⟩ := nest_arr n []
  have hw : wsRequestType "sendMessage" = .SendMessage := by decide
  simp only [wsRequestData, hu, hw, he, unmarshalStruct]

/-- C4 (as amended): decoding is a total function, and for every message the decoded request
is the unrecognized-request sentinel (tag `RequestError`, nil payload) exactly when the type
string of the message read as an envelope is none of `sendMessage`, `createConversation`,
`retrieveConversation`: the message has to be the text of one JSON object nested at most
10000 deep, and its type string is the last string value among the members whose key is
`type`, letter case ignored. The tag depends on this type string alone, so a known type whose
`data` is well-formed JSON of the wrong shape keeps its tag; the `bogus` message decodes to
the sentinel; a message that is not well-formed JSON, or nested deeper than 10000, decodes to
the sentinel whatever type it names. -/
theorem decode_sentinel_iff (shapes : PayloadShapes) (data : String) :
    (wsRequestData shapes data = ⟨.RequestError, .nil⟩ ↔
      envelopeType data ∉ [sendMessage, createConversation, retrieveConversation]) ∧
    (wsRequestData shapes data).Type' = wsRequestType (envelopeType data) ∧
    wsRequestType sendMessage = .SendMessage ∧
    wsRequestType createConversation = .CreateConversation ∧
    wsRequestType retrieveConversation = .RetrieveConversation ∧
    envelopeType "\x7b\"type\":\"bogus\",\"data\":\x7b\x7d\x7d" = "bogus" ∧
    wsRequestData shapes "\x7b\"type\":\"bogus\",\"data\":\x7b\x7d\x7d" = ⟨.RequestError, .nil⟩ ∧
    wsRequestData shapes "\x7b\"type\":\"sendMessage\",\"data\":\"oops\"\x7d"
      = ⟨.SendMessage, .SendMessageRequest shapes.SendMessageRequest.zero⟩ ∧
    wsRequestData shapes "\x7b\"TYPE\":\"sendMessage\"\x7d"
      = ⟨.SendMessage, .SendMessageRequest shapes.SendMessageRequest.zero⟩ ∧
    wsRequestData shapes "\x7b\"type\":\"sendMessage\",\"type\":\"bogus\"\x7d"
      = ⟨.RequestError, .nil⟩ ∧
    wsRequestData shapes "\x7b\"type\":\"sendMessage\",\"data\":\x7d" = ⟨.RequestError, .nil⟩ ∧
    (∀ n, 10000 ≤ n → wsRequestData shapes (deepMessage n) = ⟨.RequestError, .nil⟩) ∧
    (∀ n, n + 2 ≤ 10000 → wsRequestData shapes (deepMessage (n + 1))
      = ⟨.SendMessage, .SendMessageRequest shapes.SendMessageRequest.zero⟩) := by
  have ht : (wsRequestData shapes data).Type' = wsRequestType (envelopeType data) := by
    rw [wsRequestData_type, unmarshalRequest_type]
  refine ⟨?_, ht, by decide, by decide, by decide, by rfl, by rfl, by rfl, by rfl, by rfl,
    by rfl, fun n h => wsRequestData_deep shapes n h,
    fun n h => wsRequestData_shallow shapes n h⟩
  constructor
  · intro h
    rw [h] at ht
    rcases wsRequestType_cases (envelopeType data) with h1 | h1 | h1 | h1
    · rw [h1.2] at ht; cases ht
    · rw [h1.2] at ht; cases ht
    · rw [h1.2] at ht; cases ht
    · exact h1.1
  · intro h
    rw [← unmarshalRequest_type] at h
    rcases wsRequestType_cases (unmarshalRequest data).RequestType with h1 | h1 | h1 | h1
    · exact absurd (by simp [h1.1]) h
    · exact absurd (by simp [h1.1]) h
    · exact absurd (by simp [h1.1]) h
    · simp only [wsRequestData, h1.2]

/-- C4 (as stated) fails: the send-message envelope whose data is 10000 arrays nested in one
another names the known type `sendMessage` and yet decodes to the sentinel, because the
decoder refuses the nesting; the same envelope with 9999 arrays decodes to a send-message
request. A send-message envelope whose data is missing decodes to the sentinel too. -/
theorem known_type_too_deep :
    wsRequestData exampleShapes (deepMessage 10000) = ⟨.RequestError, .nil⟩ ∧
    wsRequestData exampleShapes (deepMessage 9999)
      = ⟨.SendMessage, .SendMessageRequest [.int 0, .string ""]⟩ ∧
    wsRequestData exampleShapes "\x7b\"type\":\"sendMessage\",\"data\":\x7d"
      = ⟨.RequestError, .nil⟩ :=
  ⟨wsRequestData_deep exampleShapes 10000 (by decide),
    wsRequestData_shallow exampleShapes 9998 (by decide), by rfl⟩

theorem outResponse_spec (i : Nat) (r : Response D) (c : Conn σ D)
    (h : c.pumpOut[i]? = some .select) :
    ∃ c1, outResponse i r c = some c1 ∧
      c1.pumpOut[i]? = some (.deadline (pumpOutEnvelope r)) ∧
      c1.calls = c.calls ∧ c1.leave = c.leave ∧ c1.conn = c.conn := by
  simp only [outResponse, h, Option.some.injEq, exists_eq_left']
  exact ⟨getElem?_set_self _ c.pumpOut i _ h, rfl, rfl, rfl⟩

theorem stepOut_deadline_spec (t : WebsocketConn σ D) (i : Nat) (env : wsResponse D)
    (c : Conn σ D) (h : c.pumpOut[i]? = some (.deadline env)) :
    ∃ c1, stepOut t i c = some c1 ∧
      c1.pumpOut[i]? = some (.write env) ∧
      c1.calls = c.calls ++ [.SetWriteDeadline (.nowPlus 5)] ∧ c1.leave = c.leave ∧
      c1.conn = (t.SetWriteDeadline (.nowPlus 5) c.conn).1 := by
  simp only [stepOut, h, Option.some.injEq, exists_eq_left']
  exact ⟨getElem?_set_self _ c.pumpOut i _ h, rfl, rfl, rfl⟩

theorem stepOut_write_spec (t : WebsocketConn σ D) (i : Nat) (env : wsResponse D)
    (c : Conn σ D) (h : c.pumpOut[i]? = some (.write env)) :
    ∃ c1, stepOut t i c = some c1 ∧
      c1.pumpOut[i]? = some (if (t.WriteJSON env c.conn).2.isSome then .signal else .select) ∧
      c1.calls = c.calls ++ [.WriteJSON env] ∧ c1.leave = c.leave ∧
      c1.conn = (t.WriteJSON env c.conn).1 := by
  cases hw : (t.WriteJSON env c.conn).2 with
  | none =>
    simp only [stepOut, h, hw, Option.some.injEq, exists_eq_left']
    exact ⟨getElem?_set_self _ c.pumpOut i _ h, rfl, rfl, rfl⟩
  | some e =>
    simp only [stepOut, h, hw, Option.some.injEq, exists_eq_left']
    exact ⟨getElem?_set_self _ c.pumpOut i _ h, rfl, rfl, rfl⟩

theorem stepOut_signal_spec (t : WebsocketConn σ D) (i : Nat) (c : Conn σ D)
    (h : c.pumpOut[i]? = some .signal) (hl : c.leave = 0) :
    ∃ c1, stepOut t i c = some c1 ∧
      c1.pumpOut[i]? = some .select ∧ c1.calls = c.calls ∧ c1.leave = 1 ∧
      c1.conn = c.conn := by
  simp only [stepOut, h, hl, Nat.lt_one_iff, if_true, Option.some.injEq, exists_eq_left']
  exact ⟨getElem?_set_self _ c.pumpOut i _ h, rfl, by simp [Conn.gotoOut, hl], rfl⟩

theorem stepIn_read_spec (t : WebsocketConn σ D) (shapes : PayloadShapes) (i : Nat)
    (c : Conn σ D) (h : c.pumpIn[i]? = some .read) :
    ∃ c1, stepIn t shapes i c = some c1 ∧
      c1.pumpIn[i]? = some (if (t.ReadMessage c.conn).2.2.2.isSome
        then .signal (t.ReadMessage c.conn).2.2.1 else .push (t.ReadMessage c.conn).2.2.1) ∧
      c1.calls = c.calls ++ [.ReadMessage] ∧ c1.leave = c.leave ∧
      c1.requests = c.requests := by
  cases hw : (t.ReadMessage c.conn).2.2.2 with
  | none =>
    simp only [stepIn, h, hw, Option.some.injEq, exists_eq_left']
    exact ⟨getElem?_set_self _ c.pumpIn i _ h, rfl, rfl, rfl⟩
  | some e =>
    simp only [stepIn, h, hw, Option.some.injEq, exists_eq_left']
    exact ⟨getElem?_set_self _ c.pumpIn i _ h, rfl, rfl, rfl⟩

theorem stepIn_signal_spec (t : WebsocketConn σ D) (shapes : PayloadShapes) (i : Nat)
    (m : String) (c : Conn σ D) (h : c.pumpIn[i]? = some (.signal m)) (hl : c.leave = 0) :
    ∃ c1, stepIn t shapes i c = some c1 ∧
      c1.pumpIn[i]? = some (.push m) ∧ c1.calls = c.calls ∧ c1.leave = 1 ∧
      c1.requests = c.requests := by
  simp only [stepIn, h, hl, Nat.lt_one_iff, if_true, Option.some.injEq, exists_eq_left']
  exact ⟨getElem?_set_self _ c.pumpIn i _ h, rfl, by simp [Conn.gotoIn, hl], rfl⟩

theorem stepIn_push_spec (t : WebsocketConn σ D) (shapes : PayloadShapes) (i : Nat)
    (m : String) (c : Conn σ D) (h : c.pumpIn[i]? = some (.push m)) :
    ∃ c1, stepIn t shapes i c = some c1 ∧
      c1.pumpIn[i]? = some .select ∧ c1.calls = c.calls ∧ c1.leave = c.leave ∧
      c1.requests = c.requests ++ [wsRequestData shapes m] := by
  simp only [stepIn, h, Option.some.injEq, exists_eq_left']
  exact ⟨getElem?_set_self _ c.pumpIn i _ h, rfl, rfl, rfl⟩

/-- C6: for every response tag and payload, the envelope `pumpOut` builds carries the payload
unchanged and the table's wire string, which is not empty; and a write pump that takes the
response from its `select` passes exactly this envelope to `WriteJSON`, after setting the
write deadline. -/
theorem response_envelope (t : WebsocketConn σ D) (shapes : PayloadShapes) (c : Conn σ D)
    (i : Nat) (tag : ResponseType) (d : D) (h : c.pumpOut[i]? = some .select) :
    pumpOutEnvelope ⟨tag, d⟩ = ⟨responseWire tag, d⟩ ∧
    responseWire tag ≠ "" ∧
    ∃ c1, run t shapes [.outResponse i ⟨tag, d⟩, .stepOut i, .stepOut i] c = some c1 ∧
      c1.calls = c.calls ++
        [.SetWriteDeadline (.nowPlus 5), .WriteJSON ⟨responseWire tag, d⟩] := by
  have he : pumpOutEnvelope (⟨tag, d⟩ : Response D) = ⟨responseWire tag, d⟩ := by
    cases tag <;> rfl
  refine ⟨he, by cases tag <;> decide, ?_⟩
  obtain ⟨c1, e1, p1, k1, -, -⟩ := outResponse_spec i ⟨tag, d⟩ c h
  obtain ⟨c2, e2, p2, k2, -, -⟩ := stepOut_deadline_spec t i _ c1 p1
  obtain ⟨c3, e3, -, k3, -, -⟩ := stepOut_write_spec t i _ c2 p2
  refine ⟨c3, by simp only [run, step, e1, e2, e3], ?_⟩
  rw [k3, k2, k1, he]
  simp

/-- C6, on the scripted transport. -/
theorem response_envelope_witness :
    pumpOutEnvelope (⟨.NewMessage, 7⟩ : Response Nat) = ⟨"newMessage", 7⟩ :=
  (response_envelope scripted exampleShapes
    (Authorize scripted (dial [("\x7b\"display_name\":\"alice\"\x7d", none)] [])).1
    0 .NewMessage 7 (by rfl)).1

/-- C9: one `receive` of a read pump. When `ReadMessage` returns an error (and the shutdown
slot is free), the pump sends the shutdown signal and then still pushes the request decoded
from the returned message onto the inbound channel, before going back to its `select`; when
`ReadMessage` returns a message without error, the pump sends no signal and pushes exactly
the request decoded from it. -/
theorem receive_after_read (t : WebsocketConn σ D) (shapes : PayloadShapes) (i : Nat)
    (c : Conn σ D) (h : c.pumpIn[i]? = some .read) :
    ((t.ReadMessage c.conn).2.2.2.isSome = true → c.leave = 0 →
      ∃ c1, run t shapes [.stepIn i, .stepIn i, .stepIn i] c = some c1 ∧
        c1.leave = 1 ∧
        c1.requests = c.requests ++ [wsRequestData shapes (t.ReadMessage c.conn).2.2.1] ∧
        c1.pumpIn[i]? = some .select) ∧
    ((t.ReadMessage c.conn).2.2.2.isSome = false →
      ∃ c1, run t shapes [.stepIn i, .stepIn i] c = some c1 ∧
        c1.leave = c.leave ∧
        c1.requests = c.requests ++ [wsRequestData shapes (t.ReadMessage c.conn).2.2.1] ∧
        c1.pumpIn[i]? = some .select) := by
  obtain ⟨c1, e1, p1, -, l1, q1⟩ := stepIn_read_spec t shapes i c h
  constructor
  · intro herr hl
    rw [herr] at p1
    simp only [if_true] at p1
    obtain ⟨c2, e2, p2, -, l2, q2⟩ := stepIn_signal_spec t shapes i _ c1 p1 (by rw [l1, hl])
    obtain ⟨c3, e3, p3, -, l3, q3⟩ := stepIn_push_spec t shapes i _ c2 p2
    refine ⟨c3, by simp only [run, step, e1, e2, e3], by rw [l3, l2], ?_, p3⟩
    rw [q3, q2, q1]
  · intro hok
    rw [hok] at p1
    simp only [Bool.false_eq_true, if_false] at p1
    obtain ⟨c2, e2, p2, -, l2, q2⟩ := stepIn_push_spec t shapes i _ c1 p1
    refine ⟨c2, by simp only [run, step, e1, e2], by rw [l2, l1], ?_, p2⟩
    rw [q2, q1]

/-- C9, on the scripted transport: the read after the handshake fails, and the
unrecognized-request sentinel is pushed all the same. -/
theorem receive_after_read_witness :
    ∃ c1, run scripted exampleShapes [.stepIn 0, .stepIn 0, .stepIn 0]
        (runOps scripted exampleShapes [.Authorize, .pump (.stepIn 0), .pump (.stepIn 0)]
          (dial [("\x7b\"display_name\":\"alice\"\x7d", none), ("", some "connection reset")]
            [])) = some c1 ∧
      c1.leave = 1 ∧ c1.requests = [] ++ [⟨.RequestError, .nil⟩] ∧
      c1.pumpIn[0]? = some .select :=
  (receive_after_read scripted exampleShapes 0
    (runOps scripted exampleShapes [.Authorize, .pump (.stepIn 0), .pump (.stepIn 0)]
      (dial [("\x7b\"display_name\":\"alice\"\x7d", none), ("", some "connection reset")] []))
    (by rfl)).1 (by rfl) (by rfl)

/-- C10: a write pump whose `WriteJSON` fails (with the shutdown slot free) sends the
shutdown signal and returns to its `select`; if a response is offered there and the `select`
takes it, the pump sets a new deadline and calls `WriteJSON` again. -/
theorem write_after_failed_write (t : WebsocketConn σ D) (shapes : PayloadShapes) (i : Nat)
    (env : wsResponse D) (r : Response D) (c : Conn σ D)
    (h : c.pumpOut[i]? = some (.write env))
    (hf : (t.WriteJSON env c.conn).2.isSome = true) (hl : c.leave = 0) :
    ∃ c1, run t shapes
        [.stepOut i, .stepOut i, .outResponse i r, .stepOut i, .stepOut i] c = some c1 ∧
      c1.calls = c.calls ++
        [.WriteJSON env, .SetWriteDeadline (.nowPlus 5), .WriteJSON (pumpOutEnvelope r)] := by
  obtain ⟨c1, e1, p1, k1, l1, -⟩ := stepOut_write_spec t i env c h
  rw [hf] at p1
  simp only [if_true] at p1
  obtain ⟨c2, e2, p2, k2, -, -⟩ := stepOut_signal_spec t i c1 p1 (by rw [l1, hl])
  obtain ⟨c3, e3, p3, k3, -, -⟩ := outResponse_spec i r c2 p2
  obtain ⟨c4, e4, p4, k4, -, -⟩ := stepOut_deadline_spec t i _ c3 p3
  obtain ⟨c5, e5, -, k5, -, -⟩ := stepOut_write_spec t i _ c4 p4
  refine ⟨c5, by simp only [run, step, e1, e2, e3, e4, e5], ?_⟩
  rw [k5, k4, k3, k2, k1]
  simp

/-- C10, on the scripted transport: the first write fails, a second response is written. -/
theorem write_after_failed_write_witness :
    ∃ c1, run scripted exampleShapes
        [.stepOut 0, .stepOut 0, .outResponse 0 ⟨.NewConversation, 8⟩, .stepOut 0, .stepOut 0]
        (runOps scripted exampleShapes
          [.Authorize, .pump (.outResponse 0 ⟨.NewMessage, 7⟩), .pump (.stepOut 0)]
          (dial [("\x7b\"display_name\":\"alice\"\x7d", none)] [some "broken pipe"])) = some c1 ∧
      c1.calls =
        [.SetReadDeadline (.nowPlus 10), .ReadMessage, .SetWriteDeadline (.nowPlus 5)] ++
        [.WriteJSON ⟨"newMessage", 7⟩, .SetWriteDeadline (.nowPlus 5),
         .WriteJSON ⟨"newConversation", 8⟩] :=
  write_after_failed_write scripted exampleShapes 0 ⟨"newMessage", 7⟩ ⟨.NewConversation, 8⟩
    (runOps scripted exampleShapes
      [.Authorize, .pump (.outResponse 0 ⟨.NewMessage, 7⟩), .pump (.stepOut 0)]
      (dial [("\x7b\"display_name\":\"alice\"\x7d", none)] [some "broken pipe"]))
    (by rfl) (by rfl) (by rfl)

/-- A write pump that takes the shutdown signal closes the transport and returns, and a
pump that has returned takes no further step. -/
theorem pumpOut_shutdown (t : WebsocketConn σ D) (shapes : PayloadShapes) (i : Nat)
    (c : Conn σ D) :
    (c.pumpOut[i]? = some .select → 0 < c.leave →
      ∃ c1, run t shapes [.outLeave i, .stepOut i] c = some c1 ∧
        c1.calls = c.calls ++ [.Close] ∧ c1.conn = (t.Close c.conn).1 ∧
        c1.pumpOut[i]? = some .done) ∧
    (c.pumpOut[i]? = some .done →
      stepOut t i c = none ∧ outLeave i c = none ∧ ∀ r, outResponse i r c = none) := by
  constructor
  · intro h hl
    have g1 := getElem?_set_self OutPc.close c.pumpOut i _ h
    have e1 : outLeave i c
        = some (({ c with leave := c.leave - 1 } : Conn σ D).gotoOut i .close) := by
      simp only [outLeave, h, hl, if_true]
    have e2 : stepOut t i (({ c with leave := c.leave - 1 } : Conn σ D).gotoOut i .close)
        = some (((({ c with leave := c.leave - 1 } : Conn σ D).gotoOut i .close).close
            t).gotoOut i .done) := by
      simp only [stepOut, Conn.gotoOut, g1]
    simp only [run, step, e1, e2, Option.some.injEq, exists_eq_left']
    exact ⟨rfl, rfl, getElem?_set_self OutPc.done _ i _ g1⟩
  · intro h
    refine ⟨by simp only [stepOut, h], by simp only [outLeave, h], ?_⟩
    intro r
    simp only [outResponse, h]

/-! ## The pumps: closing the transport -/

theorem replay_append (t : WebsocketConn σ D) (calls : List (Call D)) (k : Call D) (s : σ) :
    replay t (calls ++ [k]) s = k.apply t (replay t calls s) := by
  simp [replay, List.foldl_append]

/-- A step keeps the transport the result of the calls recorded. -/
theorem step_replay (t : WebsocketConn σ D) (shapes : PayloadShapes) (a : Action D)
    (c c1 : Conn σ D) (s0 : σ) (hinv : c.conn = replay t c.calls s0)
    (h : step t shapes a c = some c1) : c1.conn = replay t c1.calls s0 := by
  cases a with
  | stepIn i =>
    simp only [step, stepIn] at h
    split at h <;> (try split at h) <;>
      first
        | (cases h; done)
        | (cases h; exact hinv)
        | (cases h; simp only [Conn.gotoIn, Conn.close, replay_append, Call.apply, hinv])
  | outLeave i =>
    simp only [step, outLeave] at h
    split at h <;> (try split at h) <;>
      first | (cases h; done) | (cases h; exact hinv)
  | outResponse i r =>
    simp only [step, outResponse] at h
    split at h <;> first | (cases h; done) | (cases h; exact hinv)
  | stepOut i =>
    simp only [step, stepOut] at h
    split at h <;> (try split at h) <;>
      first
        | (cases h; done)
        | (cases h; exact hinv)
        | (cases h; simp only [Conn.gotoOut, Conn.close, replay_append, Call.apply, hinv])
  | routerLeave =>
    simp only [step] at h
    split at h <;> first | (cases h; done) | (cases h; exact hinv)

theorem run_replay (t : WebsocketConn σ D) (shapes : PayloadShapes) (acts : List (Action D))
    (s0 : σ) :
    ∀ (c c1 : Conn σ D), c.conn = replay t c.calls s0 → run t shapes acts c = some c1 →
      c1.conn = replay t c1.calls s0 := by
  induction acts with
  | nil =>
    intro c c1 hinv h
    simp only [run, Option.some.injEq] at h
    rw [← h]
    exact hinv
  | cons a as ih =>
    intro c c1 hinv h
    simp only [run] at h
    cases hs : step t shapes a c with
    | none => rw [hs] at h; cases h
    | some c2 =>
      rw [hs] at h
      exact ih c2 c1 (step_replay t shapes a c c2 s0 hinv hs) h

/-- `Authorize` keeps the transport the result of the calls recorded. -/
theorem authorize_replay (t : WebsocketConn σ D) (c : Conn σ D) (s0 : σ)
    (hinv : c.conn = replay t c.calls s0) :
    (Authorize t c).1.conn = replay t (Authorize t c).1.calls s0 := by
  simp only [Authorize]
  split
  · simp only [Conn.close, replay_append, Call.apply, hinv]
  · split
    · simp only [Conn.close, replay_append, Call.apply, hinv]
    · split
      · simp only [Conn.close, replay_append, Call.apply, hinv]
      · simp only [replay_append, Call.apply, hinv]

/-- A read pump that finds the shutdown signal at its `select` takes it, closes the
transport and returns. -/
theorem pumpIn_shutdown (t : WebsocketConn σ D) (shapes : PayloadShapes) (i : Nat)
    (c : Conn σ D) (h : c.pumpIn[i]? = some .select) (hl : 0 < c.leave) :
    ∃ c1, run t shapes [.stepIn i, .stepIn i] c = some c1 ∧
      c1.calls = c.calls ++ [.Close] ∧ c1.conn = (t.Close c.conn).1 ∧
      c1.pumpIn[i]? = some .done := by
  have g1 := getElem?_set_self InPc.close c.pumpIn i _ h
  have e1 : stepIn t shapes i c
      = some (({ c with leave := c.leave - 1 } : Conn σ D).gotoIn i .close) := by
    simp only [stepIn, h, hl, if_true]
  have e2 : stepIn t shapes i (({ c with leave := c.leave - 1 } : Conn σ D).gotoIn i .close)
      = some (((({ c with leave := c.leave - 1 } : Conn σ D).gotoIn i .close).close
          t).gotoIn i .done) := by
    simp only [stepIn, Conn.gotoIn, g1]
  simp only [run, step, e1, e2, Option.some.injEq, exists_eq_left']
  exact ⟨rfl, rfl, getElem?_set_self InPc.done _ i _ g1⟩

theorem step_closes (t : WebsocketConn σ D) (shapes : PayloadShapes) (a : Action D)
    (c c1 : Conn σ D) (h : step t shapes a c = some c1) :
    c1.closes + c.returned = c.closes + c1.returned := by
  cases a with
  | stepIn i =>
    simp only [step, stepIn] at h
    cases hpc : c.pumpIn[i]? with
    | none => simp [hpc] at h
    | some pc =>
      have hc := fun b => countP_set InPc.isDone b c.pumpIn i pc hpc
      rw [hpc] at h
      cases pc with
      | start =>
        simp only [Option.some.injEq] at h
        subst h
        have := hc .select
        simp [Conn.closes, Conn.returned, Conn.gotoIn, List.countP_append, Call.isClose,
          InPc.isDone] at this ⊢
        omega
      | select =>
        simp only at h
        split at h
        · simp only [Option.some.injEq] at h
          subst h
          have hk := hc .close
          simp [Conn.closes, Conn.returned, Conn.gotoIn, InPc.isDone] at hk ⊢
          omega
        · simp only [Option.some.injEq] at h
          subst h
          have hk := hc .read
          simp [Conn.closes, Conn.returned, Conn.gotoIn, InPc.isDone] at hk ⊢
          omega
      | close =>
        simp only [Option.some.injEq] at h
        subst h
        have := hc .done
        simp [Conn.closes, Conn.returned, Conn.gotoIn, Conn.close, List.countP_append,
          Call.isClose, InPc.isDone] at this ⊢
        omega
      | read =>
        simp only at h
        split at h
        · simp only [Option.some.injEq] at h
          subst h
          have hk := hc (.signal (t.ReadMessage c.conn).2.2.1)
          simp [Conn.closes, Conn.returned, Conn.gotoIn, List.countP_append, Call.isClose,
            InPc.isDone] at hk ⊢
          omega
        · simp only [Option.some.injEq] at h
          subst h
          have hk := hc (.push (t.ReadMessage c.conn).2.2.1)
          simp [Conn.closes, Conn.returned, Conn.gotoIn, List.countP_append, Call.isClose,
            InPc.isDone] at hk ⊢
          omega
      | signal m =>
        simp only at h
        split at h
        · simp only [Option.some.injEq] at h
          subst h
          have := hc (.push m)
          simp [Conn.closes, Conn.returned, Conn.gotoIn, InPc.isDone] at this ⊢
          omega
        · cases h
      | push m =>
        simp only [Option.some.injEq] at h
        subst h
        have := hc .select
        simp [Conn.closes, Conn.returned, Conn.gotoIn, InPc.isDone] at this ⊢
        omega
      | done => cases h
  | outLeave i =>
    simp only [step, outLeave] at h
    cases hpc : c.pumpOut[i]? with
    | none => simp [hpc] at h
    | some pc =>
      have hc := fun b => countP_set OutPc.isDone b c.pumpOut i pc hpc
      rw [hpc] at h
      cases pc with
      | select =>
        simp only at h
        split at h
        · simp only [Option.some.injEq] at h
          subst h
          have := hc .close
          simp [Conn.closes, Conn.returned, Conn.gotoOut, OutPc.isDone] at this ⊢
          omega
        · cases h
      | _ => cases h
  | outResponse i r =>
    simp only [step, outResponse] at h
    cases hpc : c.pumpOut[i]? with
    | none => simp [hpc] at h
    | some pc =>
      have hc := fun b => countP_set OutPc.isDone b c.pumpOut i pc hpc
      rw [hpc] at h
      cases pc with
      | select =>
        simp only [Option.some.injEq] at h
        subst h
        have := hc (.deadline (pumpOutEnvelope r))
        simp [Conn.closes, Conn.returned, Conn.gotoOut, OutPc.isDone] at this ⊢
        omega
      | _ => cases h
  | stepOut i =>
    simp only [step, stepOut] at h
    cases hpc : c.pumpOut[i]? with
    | none => simp [hpc] at h
    | some pc =>
      have hc := fun b => countP_set OutPc.isDone b c.pumpOut i pc hpc
      rw [hpc] at h
      cases pc with
      | select => cases h
      | close =>
        simp only [Option.some.injEq] at h
        subst h
        have := hc .done
        simp [Conn.closes, Conn.returned, Conn.gotoOut, Conn.close, List.countP_append,
          Call.isClose, OutPc.isDone] at this ⊢
        omega
      | deadline r =>
        simp only [Option.some.injEq] at h
        subst h
        have := hc (.write r)
        simp [Conn.closes, Conn.returned, Conn.gotoOut, List.countP_append, Call.isClose,
          OutPc.isDone] at this ⊢
        omega
      | write r =>
        simp only at h
        split at h
        · simp only [Option.some.injEq] at h
          subst h
          have hk := hc .signal
          simp [Conn.closes, Conn.returned, Conn.gotoOut, List.countP_append, Call.isClose,
            OutPc.isDone] at hk ⊢
          omega
        · simp only [Option.some.injEq] at h
          subst h
          have hk := hc .select
          simp [Conn.closes, Conn.returned, Conn.gotoOut, List.countP_append, Call.isClose,
            OutPc.isDone] at hk ⊢
          omega
      | signal =>
        simp only at h
        split at h
        · simp only [Option.some.injEq] at h
          subst h
          have := hc .select
          simp [Conn.closes, Conn.returned, Conn.gotoOut, OutPc.isDone] at this ⊢
          omega
        · cases h
      | done => cases h
  | routerLeave =>
    simp only [step] at h
    split at h
    · cases h
      simp [Conn.closes, Conn.returned]
    · cases h

theorem run_closes (t : WebsocketConn σ D) (shapes : PayloadShapes) (acts : List (Action D)) :
    ∀ (c c1 : Conn σ D), run t shapes acts c = some c1 →
      c1.closes + c.returned = c.closes + c1.returned := by
  induction acts with
  | nil =>
    intro c c1 h
    simp only [run, Option.some.injEq] at h
    rw [h]
  | cons a as ih =>
    intro c c1 h
    simp only [run] at h
    cases hs : step t shapes a c with
    | none => rw [hs] at h; cases h
    | some c2 =>
      rw [hs] at h
      have h1 := step_closes t shapes a c c2 hs
      have h2 := ih c2 c1 h
      omega

theorem step_lengths (t : WebsocketConn σ D) (shapes : PayloadShapes) (a : Action D)
    (c c1 : Conn σ D) (h : step t shapes a c = some c1) :
    c1.pumpIn.length = c.pumpIn.length ∧ c1.pumpOut.length = c.pumpOut.length := by
  cases a with
  | stepIn i =>
    simp only [step, stepIn] at h
    split at h <;> (try split at h) <;>
      first | (cases h; done) | (cases h; simp [Conn.gotoIn, Conn.close])
  | outLeave i =>
    simp only [step, outLeave] at h
    split at h <;> (try split at h) <;>
      first | (cases h; done) | (cases h; simp [Conn.gotoOut])
  | outResponse i r =>
    simp only [step, outResponse] at h
    split at h <;> first | (cases h; done) | (cases h; simp [Conn.gotoOut])
  | stepOut i =>
    simp only [step, stepOut] at h
    split at h <;> (try split at h) <;>
      first | (cases h; done) | (cases h; simp [Conn.gotoOut, Conn.close])
  | routerLeave =>
    simp only [step] at h
    split at h <;> first | (cases h; done) | (cases h; simp)

theorem run_lengths (t : WebsocketConn σ D) (shapes : PayloadShapes) (acts : List (Action D)) :
    ∀ (c c1 : Conn σ D), run t shapes acts c = some c1 →
      c1.pumpIn.length = c.pumpIn.length ∧ c1.pumpOut.length = c.pumpOut.length := by
  induction acts with
  | nil =>
    intro c c1 h
    simp only [run, Option.some.injEq] at h
    rw [h]
    exact ⟨rfl, rfl⟩
  | cons a as ih =>
    intro c c1 h
    simp only [run] at h
    cases hs : step t shapes a c with
    | none => rw [hs] at h; cases h
    | some c2 =>
      rw [hs] at h
      have h1 := step_lengths t shapes a c c2 hs
      have h2 := ih c2 c1 h
      exact ⟨h2.1.trans h1.1, h2.2.trans h1.2⟩

/-- C7 (as amended): from a freshly authorized connection, after any schedule of the two pumps
the number of `Close` calls on the transport equals the number of pumps that have returned,
and so is at most two, and two when both pumps have returned; the transport is in the state
these calls leave it in; and a pump that is at its `select` while the shutdown signal is in
the slot can take it, and then calls `Close` on the transport and returns. -/
theorem close_per_returned_pump (t : WebsocketConn σ D) (shapes : PayloadShapes) (conn : σ)
    (auth : Auth) (acts : List (Action D)) (c1 : Conn σ D)
    (ha : (Authorize t (NewWebsocketConn conn auth : Conn σ D)).2 = none)
    (hr : run t shapes acts (Authorize t (NewWebsocketConn conn auth)).1 = some c1) :
    c1.closes = c1.returned ∧ c1.closes ≤ 2 ∧
    c1.conn = replay t c1.calls conn ∧
    (c1.pumpIn = [.done] → c1.pumpOut = [.done] → c1.closes = 2) ∧
    (c1.pumpIn[0]? = some .select → 0 < c1.leave →
      ∃ c2, run t shapes [.stepIn 0, .stepIn 0] c1 = some c2 ∧
        c2.calls = c1.calls ++ [.Close] ∧ c2.conn = (t.Close c1.conn).1 ∧
        c2.pumpIn[0]? = some .done) ∧
    (c1.pumpOut[0]? = some .select → 0 < c1.leave →
      ∃ c2, run t shapes [.outLeave 0, .stepOut 0] c1 = some c2 ∧
        c2.calls = c1.calls ++ [.Close] ∧ c2.conn = (t.Close c1.conn).1 ∧
        c2.pumpOut[0]? = some .done) := by
  obtain ⟨k, pi, po, -⟩ := authorize_success t (NewWebsocketConn conn auth : Conn σ D) ha
  have h := run_closes t shapes acts _ c1 hr
  have hlen := run_lengths t shapes acts _ c1 hr
  have hrep := run_replay t shapes acts conn _ c1
    (authorize_replay t (NewWebsocketConn conn auth : Conn σ D) conn rfl) hr
  rw [pi, po] at hlen
  have h0 : (Authorize t (NewWebsocketConn conn auth : Conn σ D)).1.closes = 0 := by
    unfold Conn.closes
    rw [k]
    rfl
  have h1 : (Authorize t (NewWebsocketConn conn auth : Conn σ D)).1.returned = 0 := by
    unfold Conn.returned
    rw [pi, po]
    rfl
  have hc : c1.closes = c1.returned := by omega
  have hi := List.countP_le_length InPc.isDone (l := c1.pumpIn)
  have ho := List.countP_le_length (OutPc.isDone (D := D)) (l := c1.pumpOut)
  have hle : c1.returned ≤ 2 := by
    unfold Conn.returned
    rw [hlen.1] at hi
    rw [hlen.2] at ho
    simp only [NewWebsocketConn, List.nil_append, List.length_singleton] at hi ho
    omega
  refine ⟨hc, by omega, hrep, ?_, ?_, ?_⟩
  · intro hi ho
    rw [hc]
    simp [Conn.returned, hi, ho, InPc.isDone, OutPc.isDone]
  · intro hs hl
    exact pumpIn_shutdown t shapes 0 c1 hs hl
  · intro hs hl
    exact (pumpOut_shutdown t shapes 0 c1).1 hs hl

/-- C7 (as amended), on the scripted transport: only the write fails; the write pump closes
and returns, the read pump has not returned, and the transport has been closed once. -/
theorem close_per_returned_pump_witness :
    (runOps scripted exampleShapes (.Authorize :: writeFails.map Op.pump)
      (NewWebsocketConn failingWire nameGate)).closes = 1 ∧
    (runOps scripted exampleShapes (.Authorize :: writeFails.map Op.pump)
      (NewWebsocketConn failingWire nameGate)).conn.closed = 1 ∧
    (runOps scripted exampleShapes (.Authorize :: writeFails.map Op.pump)
      (NewWebsocketConn failingWire nameGate)).closes ≤ 2 :=
  ⟨by rfl, by rfl,
    (close_per_returned_pump scripted exampleShapes failingWire nameGate writeFails
      _ (by rfl) (by rfl)).2.1⟩

/-- C7 (as stated) fails, in both halves. In the schedule `bothFail`, where both pumps meet a
transport error, both pumps return and the transport receives `Close` twice. In the schedule
`bothBlock`, where both pumps meet a transport error after the routing component has sent
the shutdown signal, each pump is left sending the signal into the full slot: no action is
enabled any more, neither pump has returned, and the transport is never closed. And in
`bothFail` itself, once both pumps have met their error (`bothWait`), neither pump can move
until the routing component receives the request the read pump pushes. -/
theorem close_invoked_twice :
    (run scripted exampleShapes bothFail
        (Authorize scripted (NewWebsocketConn failingWire nameGate)).1
      = some (runOps scripted exampleShapes (.Authorize :: bothFail.map Op.pump)
          (NewWebsocketConn failingWire nameGate)) ∧
    (runOps scripted exampleShapes (.Authorize :: bothFail.map Op.pump)
      (NewWebsocketConn failingWire nameGate)).pumpIn = [.done] ∧
    (runOps scripted exampleShapes (.Authorize :: bothFail.map Op.pump)
      (NewWebsocketConn failingWire nameGate)).pumpOut = [.done] ∧
    (runOps scripted exampleShapes (.Authorize :: bothFail.map Op.pump)
      (NewWebsocketConn failingWire nameGate)).conn.closed = 2 ∧
    (runOps scripted exampleShapes (.Authorize :: bothFail.map Op.pump)
      (NewWebsocketConn failingWire nameGate)).calls =
      [.SetReadDeadline (.nowPlus 10), .ReadMessage, .SetReadDeadline .zero,
       .SetWriteDeadline (.nowPlus 5), .ReadMessage, .WriteJSON ⟨"newMessage", 7⟩,
       .Close, .Close]) ∧
    (run scripted exampleShapes bothBlock
        (Authorize scripted (NewWebsocketConn failingWire nameGate)).1
      = some (runOps scripted exampleShapes (.Authorize :: bothBlock.map Op.pump)
          (NewWebsocketConn failingWire nameGate)) ∧
    (runOps scripted exampleShapes (.Authorize :: bothBlock.map Op.pump)
      (NewWebsocketConn failingWire nameGate)).pumpIn = [.signal ""] ∧
    (runOps scripted exampleShapes (.Authorize :: bothBlock.map Op.pump)
      (NewWebsocketConn failingWire nameGate)).pumpOut = [.signal] ∧
    (runOps scripted exampleShapes (.Authorize :: bothBlock.map Op.pump)
      (NewWebsocketConn failingWire nameGate)).leave = 1 ∧
    (runOps scripted exampleShapes (.Authorize :: bothBlock.map Op.pump)
      (NewWebsocketConn failingWire nameGate)).conn.closed = 0 ∧
    ∀ a : Action Nat, step scripted exampleShapes a
      (runOps scripted exampleShapes (.Authorize :: bothBlock.map Op.pump)
        (NewWebsocketConn failingWire nameGate)) = none) ∧
    (run scripted exampleShapes bothWait
        (Authorize scripted (NewWebsocketConn failingWire nameGate)).1
      = some (runOps scripted exampleShapes (.Authorize :: bothWait.map Op.pump)
          (NewWebsocketConn failingWire nameGate)) ∧
    (runOps scripted exampleShapes (.Authorize :: bothWait.map Op.pump)
      (NewWebsocketConn failingWire nameGate)).pumpIn = [.push ""] ∧
    (runOps scripted exampleShapes (.Authorize :: bothWait.map Op.pump)
      (NewWebsocketConn failingWire nameGate)).pumpOut = [.signal] ∧
    ∀ a : Action Nat, a ≠ .stepIn 0 → step scripted exampleShapes a
      (runOps scripted exampleShapes (.Authorize :: bothWait.map Op.pump)
        (NewWebsocketConn failingWire nameGate)) = none) := by
  refine ⟨⟨by rfl, by rfl, by rfl, by rfl, by rfl⟩,
    ⟨by rfl, by rfl, by rfl, by rfl, by rfl, ?_⟩, by rfl, by rfl, by rfl, ?_⟩
  · intro a
    cases a with
    | stepIn i => cases i <;> rfl
    | outLeave i => cases i <;> rfl
    | outResponse i r => cases i <;> rfl
    | stepOut i => cases i <;> rfl
    | routerLeave => rfl
  · intro a ha
    cases a with
    | stepIn i =>
      cases i with
      | zero => exact absurd rfl ha
      | succ i => rfl
    | outLeave i => cases i <;> rfl
    | outResponse i r => cases i <;> rfl
    | stepOut i => cases i <;> rfl
    | routerLeave => rfl

/-! ## The stored Conversant -/

theorem step_conversant (t : WebsocketConn σ D) (shapes : PayloadShapes) (a : Action D)
    (c c1 : Conn σ D) (h : step t shapes a c = some c1) : c1.conversant = c.conversant := by
  cases a with
  | stepIn i =>
    simp only [step, stepIn] at h
    split at h <;> (try split at h) <;> first | (cases h; done) | (cases h; rfl)
  | outLeave i =>
    simp only [step, outLeave] at h
    split at h <;> (try split at h) <;> first | (cases h; done) | (cases h; rfl)
  | outResponse i r =>
    simp only [step, outResponse] at h
    split at h <;> first | (cases h; done) | (cases h; rfl)
  | stepOut i =>
    simp only [step, stepOut] at h
    split at h <;> (try split at h) <;> first | (cases h; done) | (cases h; rfl)
  | routerLeave =>
    simp only [step] at h
    split at h <;> first | (cases h; done) | (cases h; rfl)

theorem apply_conversant (t : WebsocketConn σ D) (shapes : PayloadShapes) (op : Op D)
    (c : Conn σ D) (h : op.succeeds t c = false) :
    (op.apply t shapes c).conversant = c.conversant := by
  cases op with
  | Authorize =>
    simp only [Op.succeeds, decide_eq_false_iff_not] at h
    exact authorize_failure t c h
  | pump a =>
    simp only [Op.apply]
    cases hs : step t shapes a c with
    | none => rfl
    | some c1 => exact step_conversant t shapes a c c1 hs
  | _ => rfl

theorem runOps_conversant (t : WebsocketConn σ D) (shapes : PayloadShapes) (ops : List (Op D)) :
    ∀ c : Conn σ D, successes t shapes ops c = 0 →
      (runOps t shapes ops c).conversant = c.conversant := by
  induction ops with
  | nil => intro c _; rfl
  | cons op ops ih =>
    intro c h
    simp only [successes] at h
    have hop : op.succeeds t c = false := by
      cases hb : op.succeeds t c with
      | false => rfl
      | true => simp [hb] at h
    have hrest : successes t shapes ops (op.apply t shapes c) = 0 := by omega
    have := ih (op.apply t shapes c) hrest
    simp only [runOps, List.foldl_cons] at this ⊢
    rw [this, apply_conversant t shapes op c hop]

theorem runOps_append (t : WebsocketConn σ D) (shapes : PayloadShapes) (xs ys : List (Op D))
    (c : Conn σ D) :
    runOps t shapes (xs ++ ys) c = runOps t shapes ys (runOps t shapes xs c) := by
  simp [runOps, List.foldl_append]

/-- C8 (as amended): over a run of operations in which no `Authorize` call succeeds the stored
Conversant keeps its value; and when the next operation is an `Authorize` call that succeeds
and no later `Authorize` call succeeds, then after that call and all the later operations
the stored Conversant is the identity the Auth gate resolved for the credentials read in
that call. -/
theorem conversant_single_write (t : WebsocketConn σ D) (shapes : PayloadShapes)
    (c : Conn σ D) (pre post : List (Op D))
    (h1 : successes t shapes pre c = 0) :
    (runOps t shapes pre c).conversant = c.conversant ∧
    ((Authorize t (runOps t shapes pre c)).2 = none →
      successes t shapes post (Authorize t (runOps t shapes pre c)).1 = 0 →
      (runOps t shapes (pre ++ .Authorize :: post) c).conversant =
        ((runOps t shapes pre c).auth
          (unmarshalCreds (handshakeRead t (runOps t shapes pre c)).2.2.1)).1) := by
  refine ⟨runOps_conversant t shapes pre c h1, ?_⟩
  intro h2 h3
  rw [runOps_append]
  have hcons : runOps t shapes (.Authorize :: post) (runOps t shapes pre c)
      = runOps t shapes post (Authorize t (runOps t shapes pre c)).1 := rfl
  rw [hcons, runOps_conversant t shapes post _ h3]
  exact (authorize_success t _ h2).2.2.2

/-- C8 (as amended), on the scripted transport: alice is let in once; the later `Authorize`
call finds nothing to read and fails. -/
theorem conversant_single_write_witness :
    (runOps scripted exampleShapes
      ([.GetConversant] ++ .Authorize :: [.pump (.stepIn 0), .Leave, .Authorize])
      (dial [("\x7b\"display_name\":\"alice\"\x7d", none)] [])).conversant = ⟨1, "alice"⟩ :=
  (conversant_single_write scripted exampleShapes
    (dial [("\x7b\"display_name\":\"alice\"\x7d", none)] [])
    [.GetConversant] [.pump (.stepIn 0), .Leave, .Authorize] (by rfl)).2 (by rfl) (by rfl)

/-- C8 (as stated) fails: on one connection two `Authorize` calls in a row both succeed, and
the stored Conversant is alice after the first and bob after the second. -/
theorem conversant_rewritten :
    (Authorize scripted (dial [("\x7b\"display_name\":\"alice\"\x7d", none),
      ("\x7b\"display_name\":\"bob\"\x7d", none)] [])).2 = none ∧
    (Authorize scripted (Authorize scripted (dial [("\x7b\"display_name\":\"alice\"\x7d", none),
      ("\x7b\"display_name\":\"bob\"\x7d", none)] [])).1).2 = none ∧
    (runOps scripted exampleShapes [.Authorize]
      (dial [("\x7b\"display_name\":\"alice\"\x7d", none),
        ("\x7b\"display_name\":\"bob\"\x7d", none)] [])).conversant = ⟨1, "alice"⟩ ∧
    (runOps scripted exampleShapes [.Authorize, .Authorize]
      (dial [("\x7b\"display_name\":\"alice\"\x7d", none),
        ("\x7b\"display_name\":\"bob\"\x7d", none)] [])).conversant = ⟨1, "bob"⟩ := by
  refine ⟨by rfl, by rfl, by rfl, by rfl⟩

end Chatty
